import Mathlib

/-!
Verification development for the Codevoice real-time collaboration and
task-notification backend.  Each Python module that the specification's
claims touch is shallowly embedded as executable Lean definitions, and the
claimed properties are settled as theorems about those definitions.

Embedding conventions:
* `datetime.utcnow()` timestamps are `Nat` values threaded in as a `now`
  parameter;
* Python exceptions raised by a roster operation become `Except String`
  results (the raising call leaves the object unchanged, as in Python where
  the `raise` happens before any mutation);
* `await obj.save()` persists to the external document store and is treated
  as the identity on the in-memory object (the store is an external
  collaborator in the specification's scope).
-/

set_option maxHeartbeats 1000000

namespace Codevoice

/-! ## models/collaboration_models.py -/

/-- `ParticipantRole` enum from `models/collaboration_models.py`. -/
inductive ParticipantRole where
  | viewer
  | editor
  | admin
  deriving Repr, DecidableEq

/-- `SessionParticipant` pydantic model: one participant entry embedded in a
collaboration session. -/
structure SessionParticipant where
  user_id : String
  username : String
  role : ParticipantRole
  joined_at : Nat
  last_activity : Nat
  is_active : Bool
  deriving Repr, DecidableEq

/-- `CollaborationSession` Beanie document (the fields the roster logic
reads or writes). -/
structure CollaborationSession where
  host_user_id : String
  name : String
  session_code : String
  is_active : Bool
  max_participants : Nat
  participants : List SessionParticipant
  shared_code : Option String
  created_at : Nat
  ended_at : Option Nat
  last_activity : Nat
  deriving Repr, DecidableEq

/-- The `for participant in self.participants` loop of `add_participant`:
reactivate the first entry whose `user_id` matches (setting `is_active` and
refreshing `last_activity`), or `none` when no entry matches. -/
def reactivateFirst (uid : String) (now : Nat) :
    List SessionParticipant → Option (List SessionParticipant)
  | [] => none
  | p :: ps =>
    if p.user_id = uid then
      some ({ p with is_active := true, last_activity := now } :: ps)
    else
      (reactivateFirst uid now ps).map (fun ps' => p :: ps')

namespace CollaborationSession

/-- `CollaborationSession.add_participant`: raises
`ValueError("Session is at maximum capacity")` when the participant list has
reached `max_participants`; otherwise reactivates an existing entry for the
user id, or appends a fresh `SessionParticipant` and refreshes the session's
`last_activity`. -/
def add_participant (s : CollaborationSession) (user_id username : String)
    (role : ParticipantRole) (now : Nat) : Except String CollaborationSession :=
  if s.max_participants ≤ s.participants.length then
    Except.error "Session is at maximum capacity"
  else
    match reactivateFirst user_id now s.participants with
    | some ps => Except.ok { s with participants := ps }
    | none =>
      Except.ok { s with
        participants := s.participants ++
          [{ user_id := user_id, username := username, role := role,
             joined_at := now, last_activity := now, is_active := true }],
        last_activity := now }

/-- `CollaborationSession.remove_participant`: filters every entry with the
given user id out of the roster and refreshes `last_activity`. -/
def remove_participant (s : CollaborationSession) (user_id : String) (now : Nat) :
    CollaborationSession :=
  { s with participants := s.participants.filter (fun p => p.user_id ≠ user_id),
           last_activity := now }

/-- `CollaborationSession.end_session`. -/
def end_session (s : CollaborationSession) (now : Nat) : CollaborationSession :=
  { s with is_active := false, ended_at := some now }

/-- `CollaborationSession.get_active_participants`. -/
def get_active_participants (s : CollaborationSession) : List SessionParticipant :=
  s.participants.filter (fun p => p.is_active)

/-- `CollaborationSession.get_participant_count`. -/
def get_participant_count (s : CollaborationSession) : Nat :=
  s.get_active_participants.length

end CollaborationSession

/-- One roster operation, as invoked by the join/leave API endpoints. -/
inductive RosterOp where
  | add (user_id username : String) (role : ParticipantRole) (now : Nat)
  | remove (user_id : String) (now : Nat)
  deriving Repr, DecidableEq

/-- Apply one roster operation; a raised capacity error leaves the session
unchanged (the exception propagates to the caller before any mutation). -/
def applyRosterOp (s : CollaborationSession) : RosterOp → CollaborationSession
  | RosterOp.add uid uname role now =>
    match s.add_participant uid uname role now with
    | Except.ok s' => s'
    | Except.error _ => s
  | RosterOp.remove uid now => s.remove_participant uid now

/-- Apply a sequence of roster operations in order. -/
def applyRosterOps (s : CollaborationSession) (ops : List RosterOp) : CollaborationSession :=
  ops.foldl applyRosterOp s

/-- The roster has pairwise-distinct user ids. -/
def uniqueUserIds (ps : List SessionParticipant) : Prop :=
  ps.Pairwise (fun p q => p.user_id ≠ q.user_id)

/-! ### Roster lemmas -/

theorem reactivateFirst_length {uid : String} {now : Nat}
    {ps ps' : List SessionParticipant}
    (h : reactivateFirst uid now ps = some ps') : ps'.length = ps.length := by
  induction ps generalizing ps' with
  | nil => simp [reactivateFirst] at h
  | cons p ps ih =>
    simp only [reactivateFirst] at h
    split at h
    · cases h
      simp
    · cases hr : reactivateFirst uid now ps with
      | none => rw [hr] at h; simp at h
      | some qs =>
        rw [hr] at h
        simp only [Option.map_some'] at h
        cases h
        simp [ih hr]

theorem add_participant_ok_invariant {s s' : CollaborationSession} {uid un : String}
    {role : ParticipantRole} {now : Nat}
    (hok : s.add_participant uid un role now = Except.ok s') :
    s'.max_participants = s.max_participants ∧
    s'.participants.length ≤ s.max_participants := by
  unfold CollaborationSession.add_participant at hok
  split at hok
  · simp at hok
  · rename_i hguard
    have hlt : s.participants.length < s.max_participants := Nat.lt_of_not_le hguard
    split at hok
    · rename_i ps hr
      cases hok
      exact ⟨rfl, by simpa [reactivateFirst_length hr] using Nat.le_of_lt hlt⟩
    · cases hok
      refine ⟨rfl, ?_⟩
      simpa using hlt

theorem applyRosterOp_invariant (s : CollaborationSession) (op : RosterOp)
    (h : s.participants.length ≤ s.max_participants) :
    (applyRosterOp s op).max_participants = s.max_participants ∧
    (applyRosterOp s op).participants.length ≤ s.max_participants := by
  cases op with
  | add uid uname role now =>
    cases hr : s.add_participant uid uname role now with
    | ok s' =>
      have hi := add_participant_ok_invariant hr
      simpa [applyRosterOp, hr] using hi
    | error e =>
      simp only [applyRosterOp, hr]
      exact ⟨trivial, h⟩
  | remove uid now =>
    exact ⟨rfl, le_trans (List.length_filter_le _ _) h⟩

theorem applyRosterOps_invariant (s : CollaborationSession) (ops : List RosterOp)
    (h : s.participants.length ≤ s.max_participants) :
    (applyRosterOps s ops).max_participants = s.max_participants ∧
    (applyRosterOps s ops).participants.length ≤ s.max_participants := by
  induction ops generalizing s with
  | nil => exact ⟨rfl, h⟩
  | cons op ops ih =>
    have h1 := applyRosterOp_invariant s op h
    have h2 := ih (applyRosterOp s op) (h1.1 ▸ h1.2)
    exact ⟨by rw [applyRosterOps] at *; simpa [h1.1] using h2.1.trans h1.1,
           by rw [applyRosterOps] at *; simpa [h1.1] using h2.2⟩

theorem get_active_participants_length_le (s : CollaborationSession) :
    s.get_active_participants.length ≤ s.participants.length :=
  List.length_filter_le _ _

/-- C3 -- main theorem, see below. At active-capacity the guard in
`add_participant` necessarily fires, because the active roster is a
sublist of the full participant list. -/
theorem add_participant_rejects_at_capacity (s : CollaborationSession)
    (uid uname : String) (role : ParticipantRole) (now : Nat)
    (h : s.max_participants ≤ s.get_active_participants.length) :
    s.add_participant uid uname role now =
      Except.error "Session is at maximum capacity" := by
  have : s.max_participants ≤ s.participants.length :=
    le_trans h (get_active_participants_length_le s)
  unfold CollaborationSession.add_participant
  simp [this]

theorem reactivateFirst_eq_none {uid : String} {now : Nat}
    {ps : List SessionParticipant} :
    reactivateFirst uid now ps = none ↔ ∀ p ∈ ps, p.user_id ≠ uid := by
  induction ps with
  | nil => simp [reactivateFirst]
  | cons p ps ih =>
    simp only [reactivateFirst]
    split
    · rename_i hp
      refine ⟨fun h => by simp at h, fun h => absurd hp (h p (List.mem_cons_self p ps))⟩
    · rename_i hp
      simp [Option.map_eq_none', ih, hp]

theorem reactivateFirst_map_user_id {uid : String} {now : Nat}
    {ps ps' : List SessionParticipant}
    (h : reactivateFirst uid now ps = some ps') :
    ps'.map (fun p => p.user_id) = ps.map (fun p => p.user_id) := by
  induction ps generalizing ps' with
  | nil => simp [reactivateFirst] at h
  | cons p ps ih =>
    simp only [reactivateFirst] at h
    split at h
    · cases h
      simp
    · cases hr : reactivateFirst uid now ps with
      | none => rw [hr] at h; simp at h
      | some qs =>
        rw [hr] at h
        simp only [Option.map_some'] at h
        cases h
        simp [ih hr]

theorem reactivateFirst_reactivates {uid : String} {now : Nat}
    {ps : List SessionParticipant} {p : SessionParticipant}
    (hmem : p ∈ ps) (hid : p.user_id = uid) :
    ∃ ps', reactivateFirst uid now ps = some ps' ∧
      ps'.length = ps.length ∧
      ∃ q ∈ ps', q.user_id = uid ∧ q.is_active = true ∧ q.last_activity = now := by
  induction ps with
  | nil => cases hmem
  | cons r ps ih =>
    by_cases hr : r.user_id = uid
    · refine ⟨{ r with is_active := true, last_activity := now } :: ps, ?_, ?_, ?_⟩
      · simp [reactivateFirst, hr]
      · simp
      · exact ⟨_, List.mem_cons_self _ _, by simp [hr]⟩
    · have hmem' : p ∈ ps := by
        cases hmem with
        | head => exact absurd hid hr
        | tail _ htl => exact htl
      obtain ⟨qs, hq, hlen, q, hqmem, hqprop⟩ := ih hmem'
      refine ⟨r :: qs, ?_, by simp [hlen], ⟨q, List.mem_cons_of_mem _ hqmem, hqprop⟩⟩
      simp [reactivateFirst, hr, hq]

theorem uniqueUserIds_iff_nodup {ps : List SessionParticipant} :
    uniqueUserIds ps ↔ (ps.map (fun p => p.user_id)).Nodup := by
  simp [uniqueUserIds, List.Nodup, List.pairwise_map]

theorem add_participant_unique {s s' : CollaborationSession} {uid un : String}
    {role : ParticipantRole} {now : Nat}
    (h : uniqueUserIds s.participants)
    (hok : s.add_participant uid un role now = Except.ok s') :
    uniqueUserIds s'.participants := by
  unfold CollaborationSession.add_participant at hok
  split at hok
  · simp at hok
  · split at hok
    · rename_i ps hr
      cases hok
      rw [uniqueUserIds_iff_nodup] at h ⊢
      simpa [reactivateFirst_map_user_id hr] using h
    · rename_i hr
      cases hok
      rw [uniqueUserIds_iff_nodup] at h ⊢
      have hno : ∀ p ∈ s.participants, p.user_id ≠ uid := reactivateFirst_eq_none.mp hr
      simp only [List.map_append, List.map_cons, List.map_nil, List.nodup_append]
      refine ⟨h, List.nodup_singleton _, ?_⟩
      intro a ha hb
      simp only [List.mem_singleton] at hb
      subst hb
      obtain ⟨p, hp, hpe⟩ := List.mem_map.mp ha
      exact hno p hp hpe

theorem remove_participant_unique {s : CollaborationSession} {uid : String} {now : Nat}
    (h : uniqueUserIds s.participants) :
    uniqueUserIds (s.remove_participant uid now).participants :=
  List.Pairwise.sublist (List.filter_sublist _) h

theorem applyRosterOp_unique (s : CollaborationSession) (op : RosterOp)
    (h : uniqueUserIds s.participants) :
    uniqueUserIds (applyRosterOp s op).participants := by
  cases op with
  | add uid uname role now =>
    cases hr : s.add_participant uid uname role now with
    | ok s' => simpa [applyRosterOp, hr] using add_participant_unique h hr
    | error e => simpa [applyRosterOp, hr] using h
  | remove uid now => exact remove_participant_unique h

theorem applyRosterOps_unique (s : CollaborationSession) (ops : List RosterOp)
    (h : uniqueUserIds s.participants) :
    uniqueUserIds (applyRosterOps s ops).participants := by
  induction ops generalizing s with
  | nil => exact h
  | cons op ops ih => exact ih _ (applyRosterOp_unique s op h)

theorem countP_active_le_one {ps : List SessionParticipant}
    (h : uniqueUserIds ps) (uid : String) :
    ps.countP (fun p => decide (p.user_id = uid) && p.is_active) ≤ 1 := by
  induction ps with
  | nil => simp
  | cons p ps ih =>
    have hps := List.pairwise_cons.mp h
    by_cases hp : p.user_id = uid
    · have hzero : ps.countP (fun q => decide (q.user_id = uid) && q.is_active) = 0 := by
        rw [List.countP_eq_zero]
        intro q hq
        simp only [Bool.and_eq_true, decide_eq_true_eq, not_and]
        intro h1
        exact absurd (by rw [hp, h1]) (hps.1 q hq)
      rw [List.countP_cons, hzero]
      split <;> simp
    · rw [List.countP_cons]
      simp only [hp, decide_eq_true_eq, Bool.and_eq_true, decide_eq_true_eq]
      have : (decide (p.user_id = uid) && p.is_active) = false := by simp [hp]
      simp [this]
      exact ih hps.2

/-! ### Claim theorems about the Collaboration Session roster -/

/-- Sample session used by the witnesses: the spec's "Standup" scenario
with a capacity limit of 2. -/
def standupSession : CollaborationSession :=
  { host_user_id := "a", name := "Standup", session_code := "JOIN42",
    is_active := true, max_participants := 2, participants := [],
    shared_code := none, created_at := 0, ended_at := none, last_activity := 0 }

/-- Sample operation sequence: A joins, B joins, C attempts to join. -/
def standupOps : List RosterOp :=
  [RosterOp.add "a" "Alice" ParticipantRole.editor 1,
   RosterOp.add "b" "Bob" ParticipantRole.editor 2,
   RosterOp.add "c" "Carol" ParticipantRole.editor 3]

/-- C3: For every Collaboration Session and after any sequence of
`add_participant` and `remove_participant` operations, the number of active
participants (the length of `get_active_participants`) never exceeds
`max_participants`; and `add_participant` rejects with the capacity error
(`ValueError("Session is at maximum capacity")`) when the session is at
capacity. -/
theorem claim_C3_capacity_invariant (s : CollaborationSession) (ops : List RosterOp)
    (h : s.participants.length ≤ s.max_participants) :
    (applyRosterOps s ops).get_active_participants.length ≤
      (applyRosterOps s ops).max_participants ∧
    ∀ uid uname role now,
      (applyRosterOps s ops).max_participants ≤
        (applyRosterOps s ops).get_active_participants.length →
      (applyRosterOps s ops).add_participant uid uname role now =
        Except.error "Session is at maximum capacity" := by
  have hi := applyRosterOps_invariant s ops h
  constructor
  · rw [hi.1]
    exact le_trans (get_active_participants_length_le _) hi.2
  · intro uid uname role now hcap
    exact add_participant_rejects_at_capacity _ uid uname role now hcap

theorem claim_C3_capacity_invariant_witness :
    standupSession.participants.length ≤ standupSession.max_participants ∧
    ((applyRosterOps standupSession standupOps).get_active_participants.length ≤
        (applyRosterOps standupSession standupOps).max_participants ∧
      ∀ uid uname role now,
        (applyRosterOps standupSession standupOps).max_participants ≤
          (applyRosterOps standupSession standupOps).get_active_participants.length →
        (applyRosterOps standupSession standupOps).add_participant uid uname role now =
          Except.error "Session is at maximum capacity") :=
  ⟨by decide, claim_C3_capacity_invariant standupSession standupOps (by decide)⟩

/-- C4: For every (session, user id) pair and any sequence of
`add_participant`/`remove_participant` calls, at most one active participant
entry with that user id exists; and calling `add_participant` for a user id
already present (below the capacity guard) reactivates the existing entry
and refreshes its `last_activity` instead of appending a duplicate. -/
theorem claim_C4_participant_uniqueness (s : CollaborationSession) (ops : List RosterOp)
    (h : uniqueUserIds s.participants) :
    (∀ uid, (applyRosterOps s ops).participants.countP
        (fun p => decide (p.user_id = uid) && p.is_active) ≤ 1) ∧
    (∀ uid uname role now, s.participants.length < s.max_participants →
      (∃ p ∈ s.participants, p.user_id = uid) →
      ∃ s', s.add_participant uid uname role now = Except.ok s' ∧
        s'.participants.length = s.participants.length ∧
        ∃ q ∈ s'.participants, q.user_id = uid ∧ q.is_active = true ∧
          q.last_activity = now) := by
  constructor
  · intro uid
    exact countP_active_le_one (applyRosterOps_unique s ops h) uid
  · intro uid uname role now hlt hmem
    obtain ⟨p, hp, hpe⟩ := hmem
    obtain ⟨ps', hr, hlen, q, hq, hqp⟩ :=
      @reactivateFirst_reactivates uid now s.participants p hp hpe
    refine ⟨{ s with participants := ps' }, ?_, by simpa using hlen, ⟨q, hq, hqp⟩⟩
    unfold CollaborationSession.add_participant
    rw [if_neg (Nat.not_le_of_lt hlt), hr]

theorem claim_C4_participant_uniqueness_witness :
    uniqueUserIds standupSession.participants ∧
    ((∀ uid, (applyRosterOps standupSession standupOps).participants.countP
        (fun p => decide (p.user_id = uid) && p.is_active) ≤ 1) ∧
    (∀ uid uname role now,
      standupSession.participants.length < standupSession.max_participants →
      (∃ p ∈ standupSession.participants, p.user_id = uid) →
      ∃ s', standupSession.add_participant uid uname role now = Except.ok s' ∧
        s'.participants.length = standupSession.participants.length ∧
        ∃ q ∈ s'.participants, q.user_id = uid ∧ q.is_active = true ∧
          q.last_activity = now)) :=
  ⟨by simp [standupSession, uniqueUserIds],
   claim_C4_participant_uniqueness standupSession standupOps
     (by simp [standupSession, uniqueUserIds])⟩

/-! ## quota.py -/

namespace Quota

/-- Lookup in the process-local `_local_quota` dict (`dict.get`). -/
def lookupQuota (uid : String) : List (String × Int) → Option Int
  | [] => none
  | (k, v) :: rest => if k = uid then some v else lookupQuota uid rest

/-- Python dict assignment `_local_quota[user_id] = v`. -/
def setQuota (uid : String) (v : Int) : List (String × Int) → List (String × Int)
  | [] => [(uid, v)]
  | (k, w) :: rest => if k = uid then (uid, v) :: rest else (k, w) :: setQuota uid v rest

/-- `check_and_debit_user_quota` from `quota.py` when no Redis client is
configured, i.e. the in-memory fallback branch acting on `_local_quota`.
`default_quota` models the `USER_QUOTA_DEFAULT` setting.  Returns the boolean
result together with the updated local store. -/
def check_and_debit_user_quota (default_quota : Int) (q : List (String × Int))
    (user_id : String) (cost : Int) : Bool × List (String × Int) :=
  if user_id = "" then (true, q)
  else
    match lookupQuota user_id q with
    | none => (true, setQuota user_id (default_quota - cost) q)
    | some entry =>
      if entry < cost then (false, q)
      else (true, setQuota user_id (entry - cost) q)

/-- The Redis branch of `check_and_debit_user_quota`: initialize the key to
the default when absent, then the Lua script atomically checks
`val < cost` and otherwise decrements.  `q` is the quota key space. -/
def redis_check_and_debit (default_quota : Int) (q : List (String × Int))
    (user_id : String) (cost : Int) : Bool × List (String × Int) :=
  if user_id = "" then (true, q)
  else
    let q1 := match lookupQuota user_id q with
      | none => setQuota user_id default_quota q
      | some _ => q
    let val := (lookupQuota user_id q1).getD (-1)
    if val < cost then (false, q1)
    else (true, setQuota user_id (val - cost) q1)

/-- `get_remaining_quota` from `quota.py` (local-store reading). -/
def get_remaining_quota (default_quota : Int) (q : List (String × Int))
    (user_id : String) : Int :=
  if user_id = "" then default_quota
  else (lookupQuota user_id q).getD default_quota

/-- C7: at the failing input -- a user with no stored entry and a cost
exceeding the default quota -- the remaining balance (100) is below the
cost (101), yet the in-memory fallback of `check_and_debit_user_quota`
returns `true` and stores a negative balance, where the claim (and the
atomic Redis branch of the same function, shown for contrast) requires
`false` with the balance left unchanged. -/
theorem claim_C7_quota_debit_bug :
    get_remaining_quota 100 [] "u" < 101 ∧
    check_and_debit_user_quota 100 [] "u" 101 = (true, [("u", -1)]) ∧
    redis_check_and_debit 100 [] "u" 101 = (false, [("u", 100)]) := by
  refine ⟨by norm_num [get_remaining_quota, lookupQuota], ?_, ?_⟩ <;>
    simp [check_and_debit_user_quota, redis_check_and_debit, lookupQuota, setQuota]

/-- C10: calling the quota guard with an empty (falsy) user id returns
`true` immediately and reads or modifies neither the process-local store
nor the Redis key space. -/
theorem claim_C10_empty_user_id (default_quota : Int) (q : List (String × Int))
    (cost : Int) :
    check_and_debit_user_quota default_quota q "" cost = (true, q) ∧
    redis_check_and_debit default_quota q "" cost = (true, q) := by
  constructor <;> simp [check_and_debit_user_quota, redis_check_and_debit]

end Quota

/-! ## models/generation_models.py -/

/-- `TaskStatus` enum. -/
inductive TaskStatus where
  | queued
  | running
  | completed
  | failed
  deriving Repr, DecidableEq

/-- A status is terminal when it is `completed` or `failed`. -/
def TaskStatus.isTerminal : TaskStatus → Bool
  | completed => true
  | failed => true
  | _ => false

/-- The order `queued < running < completed/failed` from the spec's
monotonicity property. -/
def TaskStatus.rank : TaskStatus → Nat
  | queued => 0
  | running => 1
  | completed => 2
  | failed => 2

/-- `GenerationTask` Beanie document.  The request and result payloads are
opaque strings (the lifecycle logic never inspects them). -/
structure GenerationTask where
  task_id : String
  status : TaskStatus
  request : String
  result : Option String
  artifact_path : Option String
  error : Option String
  created_at : Nat
  updated_at : Nat
  deriving Repr, DecidableEq

namespace GenerationTask

/-- `GenerationTask.mark_running`. -/
def mark_running (t : GenerationTask) (now : Nat) : GenerationTask :=
  { t with status := TaskStatus.running, updated_at := now }

/-- `GenerationTask.mark_completed`. -/
def mark_completed (t : GenerationTask) (result : String)
    (artifact : Option String) (now : Nat) : GenerationTask :=
  { t with status := TaskStatus.completed, result := some result,
           artifact_path := artifact, updated_at := now }

/-- `GenerationTask.mark_failed`. -/
def mark_failed (t : GenerationTask) (error : String) (now : Nat) : GenerationTask :=
  { t with status := TaskStatus.failed, error := some error, updated_at := now }

end GenerationTask

/-! ## gemini_project_generator.py -- the Worker loop -/

/-- One `_worker_loop` iteration for a dequeued task id whose record was
found: mark it running, invoke the external pipeline (`generate_project`,
whose outcome is a result payload or a raised exception's text), then mark
exactly one terminal state.  Returns the successive versions the Task
Record is saved as, in save order. -/
def workerProcess (t : GenerationTask) (outcome : Except String String)
    (t1 t2 : Nat) : List GenerationTask :=
  let r := t.mark_running t1
  match outcome with
  | Except.ok res => [r, r.mark_completed res none t2]
  | Except.error err => [r, r.mark_failed err t2]

/-- The status sequence observable for the task: its status at dequeue time
followed by the status of each saved version. -/
def statusTrace (t : GenerationTask) (outcome : Except String String)
    (t1 t2 : Nat) : List TaskStatus :=
  t.status :: (workerProcess t outcome t1 t2).map (fun v => v.status)

/-- C2: the Worker drives a dequeued `queued` task through
queued → running → exactly one terminal state; the observed status
sequence is non-decreasing under `queued < running < completed/failed`,
its last element is terminal, and a terminal status occurs exactly once --
at the end, so once terminal the status never changes again. -/
theorem claim_C2_status_monotone (t : GenerationTask)
    (outcome : Except String String) (t1 t2 : Nat)
    (h : t.status = TaskStatus.queued) :
    List.Chain' (fun a b => a.rank ≤ b.rank) (statusTrace t outcome t1 t2) ∧
    (∃ final, (statusTrace t outcome t1 t2).getLast? = some final ∧
      final.isTerminal = true) ∧
    (statusTrace t outcome t1 t2).countP (fun st => st.isTerminal) = 1 ∧
    (statusTrace t outcome t1 t2 =
        [TaskStatus.queued, TaskStatus.running, TaskStatus.completed] ∨
     statusTrace t outcome t1 t2 =
        [TaskStatus.queued, TaskStatus.running, TaskStatus.failed]) := by
  cases outcome with
  | ok res =>
    have ht : statusTrace t (Except.ok res) t1 t2 =
        [TaskStatus.queued, TaskStatus.running, TaskStatus.completed] := by
      simp [statusTrace, workerProcess, GenerationTask.mark_running,
        GenerationTask.mark_completed, h]
    rw [ht]
    exact ⟨by simp [List.chain'_cons, TaskStatus.rank], by decide, by decide, Or.inl rfl⟩
  | error err =>
    have ht : statusTrace t (Except.error err) t1 t2 =
        [TaskStatus.queued, TaskStatus.running, TaskStatus.failed] := by
      simp [statusTrace, workerProcess, GenerationTask.mark_running,
        GenerationTask.mark_failed, h]
    rw [ht]
    exact ⟨by simp [List.chain'_cons, TaskStatus.rank], by decide, by decide, Or.inr rfl⟩

/-- Concrete queued task used by witnesses. -/
def sampleQueuedTask : GenerationTask :=
  { task_id := "T", status := TaskStatus.queued, request := "R",
    result := none, artifact_path := none, error := none,
    created_at := 0, updated_at := 0 }

theorem claim_C2_status_monotone_witness :
    sampleQueuedTask.status = TaskStatus.queued ∧
    (List.Chain' (fun a b => a.rank ≤ b.rank)
        (statusTrace sampleQueuedTask (Except.ok "files3") 1 2) ∧
    (∃ final, (statusTrace sampleQueuedTask (Except.ok "files3") 1 2).getLast? =
        some final ∧ final.isTerminal = true) ∧
    (statusTrace sampleQueuedTask (Except.ok "files3") 1 2).countP
        (fun st => st.isTerminal) = 1 ∧
    (statusTrace sampleQueuedTask (Except.ok "files3") 1 2 =
        [TaskStatus.queued, TaskStatus.running, TaskStatus.completed] ∨
     statusTrace sampleQueuedTask (Except.ok "files3") 1 2 =
        [TaskStatus.queued, TaskStatus.running, TaskStatus.failed])) :=
  ⟨rfl, claim_C2_status_monotone sampleQueuedTask (Except.ok "files3") 1 2 rfl⟩

/-! ## gemini_project_generator.task_progress_ws -- the DB-polling fallback -/

/-- One message the polling fallback pushes over the websocket: either the
`task_not_found` error message or the task payload dict. -/
inductive WsProgressMsg where
  | task_not_found (task_id : String)
  | payload (task_id : String) (status : TaskStatus) (result : Option String)
      (artifact_path : Option String) (error : Option String)
  deriving Repr, DecidableEq

/-- The payload dict `task_progress_ws` builds from a fetched Task Record. -/
def taskPayload (t : GenerationTask) : WsProgressMsg :=
  WsProgressMsg.payload t.task_id t.status t.result t.artifact_path t.error

/-- The DB-polling fallback loop of `task_progress_ws`, driven by the finite
list of successive poll observations (`none` models `find_one` returning no
record).  `last` is the loop's `last_status` variable (initially `None`).
Returns the messages sent in order, and whether the loop closed the
websocket (reached `return` via a terminal status). -/
def pollLoop (tid : String) :
    List (Option GenerationTask) → Option TaskStatus → List WsProgressMsg × Bool
  | [], _ => ([], false)
  | none :: rest, last =>
    (WsProgressMsg.task_not_found tid :: (pollLoop tid rest last).1,
     (pollLoop tid rest last).2)
  | some t :: rest, last =>
    let changed := some t.status ≠ last
    let sent1 := if changed then [taskPayload t] else []
    let last' := if changed then some t.status else last
    if t.status.isTerminal then
      (sent1 ++ [taskPayload t], true)
    else
      (sent1 ++ (pollLoop tid rest last').1, (pollLoop tid rest last').2)

/-- The statuses carried by the status messages of a message list. -/
def sentStatuses (ms : List WsProgressMsg) : List TaskStatus :=
  ms.filterMap (fun m => match m with
    | WsProgressMsg.payload _ st _ _ _ => some st
    | WsProgressMsg.task_not_found _ => none)

/-- Concrete running/completed records for the counterexample. -/
def sampleRunningTask : GenerationTask :=
  { task_id := "T", status := TaskStatus.running, request := "R",
    result := none, artifact_path := none, error := none,
    created_at := 0, updated_at := 1 }

def sampleCompletedTask : GenerationTask :=
  { task_id := "T", status := TaskStatus.completed, request := "R",
    result := some "files3", artifact_path := none, error := none,
    created_at := 0, updated_at := 2 }

/-- C6 -- counterexample: polling a task observed `running` then
`completed`, the fallback closes the websocket but emits the terminal
payload twice (once from the status-changed branch, once from the
final-send branch), not exactly once as claimed. -/
theorem claim_C6_counterexample :
    (pollLoop "T" [some sampleRunningTask, some sampleCompletedTask] none).2 = true ∧
    (sentStatuses
        (pollLoop "T" [some sampleRunningTask, some sampleCompletedTask] none).1).countP
      (fun st => st.isTerminal) = 2 := by
  constructor <;> rfl

/-! ### Unfolding lemmas for `pollLoop` -/

theorem pollLoop_none (tid : String) (rest : List (Option GenerationTask))
    (last : Option TaskStatus) :
    pollLoop tid (none :: rest) last =
      (WsProgressMsg.task_not_found tid :: (pollLoop tid rest last).1,
       (pollLoop tid rest last).2) := rfl

theorem pollLoop_terminal {tk : GenerationTask} {last : Option TaskStatus}
    (tid : String) (rest : List (Option GenerationTask))
    (hch : some tk.status ≠ last) (ht : tk.status.isTerminal = true) :
    pollLoop tid (some tk :: rest) last = ([taskPayload tk, taskPayload tk], true) := by
  simp [pollLoop, hch, ht]

theorem pollLoop_changed {tk : GenerationTask} {last : Option TaskStatus}
    (tid : String) (rest : List (Option GenerationTask))
    (hch : some tk.status ≠ last) (ht : tk.status.isTerminal = false) :
    pollLoop tid (some tk :: rest) last =
      (taskPayload tk :: (pollLoop tid rest (some tk.status)).1,
       (pollLoop tid rest (some tk.status)).2) := by
  simp [pollLoop, hch, ht]

theorem pollLoop_unchanged {tk : GenerationTask} {last : Option TaskStatus}
    (tid : String) (rest : List (Option GenerationTask))
    (hch : some tk.status = last) (ht : tk.status.isTerminal = false) :
    pollLoop tid (some tk :: rest) last =
      ((pollLoop tid rest last).1, (pollLoop tid rest last).2) := by
  simp [pollLoop, ← hch, ht]

@[simp] theorem sentStatuses_nil : sentStatuses [] = [] := rfl

@[simp] theorem sentStatuses_not_found (tid : String) (ms : List WsProgressMsg) :
    sentStatuses (WsProgressMsg.task_not_found tid :: ms) = sentStatuses ms := rfl

@[simp] theorem sentStatuses_taskPayload (t : GenerationTask) (ms : List WsProgressMsg) :
    sentStatuses (taskPayload t :: ms) = t.status :: sentStatuses ms := rfl

/-- Structure of every closed run of the polling fallback, generalized over
the `last_status` loop variable (which is never terminal at loop entry). -/
theorem pollLoop_closed_spec (tid : String) (polls : List (Option GenerationTask)) :
    ∀ last : Option TaskStatus,
      (∀ st, last = some st → st.isTerminal = false) →
      (pollLoop tid polls last).2 = true →
      ∃ l t, sentStatuses (pollLoop tid polls last).1 = l ++ [t, t] ∧
        t.isTerminal = true ∧
        (∀ st ∈ l, st.isTerminal = false) ∧
        List.Chain' (fun a b => a ≠ b) (l ++ [t]) ∧
        ∀ s0, last = some s0 → ∀ h, (l ++ [t]).head? = some h → h ≠ s0 := by
  induction polls with
  | nil =>
    intro last _ hcl
    simp [pollLoop] at hcl
  | cons p rest ih =>
    intro last hlast hcl
    cases p with
    | none =>
      rw [pollLoop_none] at hcl ⊢
      obtain ⟨l, t, hm, ht, hnt, hchain, hhd⟩ := ih last hlast hcl
      exact ⟨l, t, by simpa using hm, ht, hnt, hchain, hhd⟩
    | some tk =>
      by_cases hterm : tk.status.isTerminal = true
      · have hch : some tk.status ≠ last := by
          intro he
          have := hlast tk.status he.symm
          rw [hterm] at this
          simp at this
        rw [pollLoop_terminal tid rest hch hterm] at hcl ⊢
        refine ⟨[], tk.status, by simp, hterm, by simp, by simp, ?_⟩
        intro s0 hs0 h hh
        simp only [List.nil_append, List.head?_cons] at hh
        cases hh
        intro he
        have := hlast s0 hs0
        rw [← he, hterm] at this
        simp at this
      · have htf : tk.status.isTerminal = false := by
          cases htt : tk.status.isTerminal
          · rfl
          · exact absurd htt hterm
        by_cases hch : some tk.status = last
        · rw [pollLoop_unchanged tid rest hch htf] at hcl ⊢
          obtain ⟨l, t, hm, ht, hnt, hchain, hhd⟩ := ih last hlast hcl
          exact ⟨l, t, by simpa using hm, ht, hnt, hchain, hhd⟩
        · rw [pollLoop_changed tid rest hch htf] at hcl ⊢
          have hlast' : ∀ st, some tk.status = some st → st.isTerminal = false := by
            intro st hst
            cases hst
            exact htf
          obtain ⟨l, t, hm, ht, hnt, hchain, hhd⟩ := ih (some tk.status) hlast' hcl
          refine ⟨tk.status :: l, t, ?_, ht, ?_, ?_, ?_⟩
          · simpa using hm
          · intro st hst
            rcases List.mem_cons.mp hst with he | hmem
            · cases he; exact htf
            · exact hnt st hmem
          · rw [List.cons_append, List.chain'_cons']
            refine ⟨?_, hchain⟩
            intro h hh
            exact (hhd tk.status rfl h hh).symm
          · intro s0 hs0 h hh
            simp only [List.cons_append, List.head?_cons] at hh
            cases hh
            intro he
            exact hch (by rw [he, hs0])


/-- C6 (amended): in the polling fallback, every non-terminal status message
is emitted only when the observed status differs from the last one sent
(adjacent sent statuses are pairwise distinct up to the final send), and
when the task reaches a terminal status the stream closes after emitting the
terminal payload twice -- once from the status-changed branch and once from
the final-send branch -- these being the only terminal messages. -/
theorem claim_C6_terminal_double_send (tid : String)
    (polls : List (Option GenerationTask))
    (hcl : (pollLoop tid polls none).2 = true) :
    ∃ l t, sentStatuses (pollLoop tid polls none).1 = l ++ [t, t] ∧
      t.isTerminal = true ∧
      (∀ st ∈ l, st.isTerminal = false) ∧
      List.Chain' (fun a b => a ≠ b) (l ++ [t]) := by
  obtain ⟨l, t, hm, ht, hnt, hchain, _⟩ :=
    pollLoop_closed_spec tid polls none (by intro st hst; cases hst) hcl
  exact ⟨l, t, hm, ht, hnt, hchain⟩

theorem claim_C6_terminal_double_send_witness :
    (pollLoop "T" [some sampleRunningTask, some sampleCompletedTask] none).2 = true ∧
    ∃ l t, sentStatuses
        (pollLoop "T" [some sampleRunningTask, some sampleCompletedTask] none).1 =
          l ++ [t, t] ∧
      t.isTerminal = true ∧
      (∀ st ∈ l, st.isTerminal = false) ∧
      List.Chain' (fun a b => a ≠ b) (l ++ [t]) :=
  ⟨rfl, claim_C6_terminal_double_send "T"
    [some sampleRunningTask, some sampleCompletedTask] rfl⟩

/-! ## websocket_manager.py -- ConnectionManager

Python dicts are association lists observed through `lookupKey`; Python sets
of websockets are duplicate-free lists; websocket handles are `Nat`.  A send
to connection `c` succeeds iff `health c = true` (an exception raised by
`send_text` is modelled by `health c = false`). -/

/-- Dict read (`d.get(k)` / `d[k]` where the key is known present). -/
def lookupKey {κ α : Type} [DecidableEq κ] (k : κ) : List (κ × α) → Option α
  | [] => none
  | kv :: rest => if kv.1 = k then some kv.2 else lookupKey k rest

/-- Dict write `d[k] = v`. -/
def setKey {κ α : Type} [DecidableEq κ] (k : κ) (v : α) (l : List (κ × α)) :
    List (κ × α) :=
  (k, v) :: l.filter (fun kv => kv.1 ≠ k)

/-- Dict delete `del d[k]` (no-op when absent, as after a presence check). -/
def eraseKey {κ α : Type} [DecidableEq κ] (k : κ) (l : List (κ × α)) :
    List (κ × α) :=
  l.filter (fun kv => kv.1 ≠ k)

/-- In-place mutation of a present entry, `f(d[k])`. -/
def updateKey {κ α : Type} [DecidableEq κ] (k : κ) (f : α → α) (l : List (κ × α)) :
    List (κ × α) :=
  l.map (fun kv => if kv.1 = k then (k, f kv.2) else kv)

/-- Set insert `s.add(ws)`. -/
def insertConn (ws : Nat) (l : List Nat) : List Nat :=
  if ws ∈ l then l else l ++ [ws]

/-- Set removal `s.discard(ws)`. -/
def removeConn (ws : Nat) (l : List Nat) : List Nat :=
  l.filter (fun c => c ≠ ws)

theorem lookupKey_filter_ne {κ α : Type} [DecidableEq κ] (k k' : κ)
    (l : List (κ × α)) :
    lookupKey k (l.filter fun kv => kv.1 ≠ k') =
      if k' = k then none else lookupKey k l := by
  induction l with
  | nil => by_cases h : k' = k <;> simp [lookupKey, h]
  | cons kv rest ih =>
    by_cases hk : kv.1 = k'
    · rw [List.filter_cons, if_neg (by simp [hk]), ih]
      by_cases he : k' = k
      · simp [he]
      · have hne : kv.1 ≠ k := fun hc => he (hk ▸ hc)
        simp [lookupKey, hne, he]
    · rw [List.filter_cons, if_pos (by simp [hk])]
      by_cases hk2 : kv.1 = k
      · have hne : k' ≠ k := fun hc => hk (by rw [hk2, hc])
        simp [lookupKey, hk2, hne]
      · simp only [lookupKey, hk2, if_false]
        simpa using ih

theorem lookupKey_setKey_self {κ α : Type} [DecidableEq κ] (k : κ) (v : α)
    (l : List (κ × α)) : lookupKey k (setKey k v l) = some v := by
  simp [setKey, lookupKey]

theorem lookupKey_setKey_ne {κ α : Type} [DecidableEq κ] {k k' : κ} (v : α)
    (l : List (κ × α)) (h : k' ≠ k) :
    lookupKey k (setKey k' v l) = lookupKey k l := by
  rw [setKey]
  show (if k' = k then some v else _) = _
  rw [if_neg h, lookupKey_filter_ne, if_neg h]

theorem lookupKey_eraseKey {κ α : Type} [DecidableEq κ] (k k' : κ)
    (l : List (κ × α)) :
    lookupKey k (eraseKey k' l) = if k' = k then none else lookupKey k l :=
  lookupKey_filter_ne k k' l

theorem lookupKey_updateKey_self {κ α : Type} [DecidableEq κ] (k : κ) (f : α → α)
    (l : List (κ × α)) :
    lookupKey k (updateKey k f l) = (lookupKey k l).map f := by
  induction l with
  | nil => rfl
  | cons kv rest ih =>
    by_cases hk : kv.1 = k
    · simp [updateKey, lookupKey, hk]
    · simp only [updateKey, List.map_cons, lookupKey, hk, if_false]
      simpa [updateKey] using ih

theorem lookupKey_updateKey_ne {κ α : Type} [DecidableEq κ] {k k' : κ} (f : α → α)
    (l : List (κ × α)) (h : k' ≠ k) :
    lookupKey k (updateKey k' f l) = lookupKey k l := by
  induction l with
  | nil => rfl
  | cons kv rest ih =>
    by_cases hk : kv.1 = k'
    · have hne : kv.1 ≠ k := fun hc => h (hk ▸ hc)
      simp only [updateKey, List.map_cons, lookupKey, hk, if_true]
      simp only [if_neg (show ¬k' = k from h)]
      simpa [updateKey] using ih
    · by_cases hk2 : kv.1 = k
      · simp only [updateKey, List.map_cons, lookupKey]
        rw [if_neg hk, if_pos hk2, if_pos hk2]
      · simp only [updateKey, List.map_cons, lookupKey]
        rw [if_neg hk, if_neg hk2, if_neg hk2]
        simpa [updateKey] using ih

theorem lookupKey_mem {κ α : Type} [DecidableEq κ] {k : κ} {v : α}
    {l : List (κ × α)} (h : lookupKey k l = some v) : (k, v) ∈ l := by
  induction l with
  | nil => simp [lookupKey] at h
  | cons kv rest ih =>
    simp only [lookupKey] at h
    split at h
    · rename_i hk
      cases h
      have hkv : kv = (k, kv.2) := by
        cases kv
        simp only at hk
        simp [hk]
      exact hkv ▸ List.mem_cons_self _ _
    · exact List.mem_cons_of_mem _ (ih h)

/-- The user-info dict captured at connect time (the fields the manager
reads). -/
structure UserInfo where
  id : String
  name : String
  deriving Repr, DecidableEq

/-- In-memory session metadata, `self.sessions[session_id]`. -/
structure SessionMeta where
  id : String
  created_at : Nat
  participants : List UserInfo
  deriving Repr, DecidableEq

/-- The four registries of `ConnectionManager.__init__`. -/
structure ConnectionManager where
  active_connections : List (String × List Nat)
  user_connections : List (Nat × (String × UserInfo))
  sessions : List (String × SessionMeta)
  user_id_connections : List (String × List Nat)
  deriving Repr, DecidableEq

/-- Server→client message kinds the manager sends. -/
inductive WsMessage where
  | user_joined (user : UserInfo) (participants_count : Nat)
  | session_info (session_id : String) (participants : List UserInfo)
      (participants_count : Nat)
  | user_left (user : UserInfo) (participants_count : Nat)
  | relay (mtype : String) (sender : UserInfo) (data : String)
  deriving Repr, DecidableEq

/-- The fan-out loop of `broadcast_to_session` over the snapshot list:
skip the excluded connection, record a send event on success, and on a
per-connection failure discard that connection from the session's set and
from `user_connections`, then continue. -/
def broadcastLoop (health : Nat → Bool) (sid : String) (msg : WsMessage)
    (exclude : Option Nat) :
    List Nat → ConnectionManager → ConnectionManager × List (Nat × WsMessage)
  | [], st => (st, [])
  | c :: cs, st =>
    if exclude = some c then broadcastLoop health sid msg exclude cs st
    else if health c then
      ((broadcastLoop health sid msg exclude cs st).1,
       (c, msg) :: (broadcastLoop health sid msg exclude cs st).2)
    else
      broadcastLoop health sid msg exclude cs
        { st with
          active_connections := updateKey sid (removeConn c) st.active_connections,
          user_connections := eraseKey c st.user_connections }

/-- `ConnectionManager.broadcast_to_session`: no-op for an unknown session,
else fan out over a snapshot (`list(...)`) of the session's connection set. -/
def broadcast_to_session (health : Nat → Bool) (st : ConnectionManager)
    (sid : String) (msg : WsMessage) (exclude : Option Nat) :
    ConnectionManager × List (Nat × WsMessage) :=
  match lookupKey sid st.active_connections with
  | none => (st, [])
  | some conns => broadcastLoop health sid msg exclude conns st

/-! ### Broadcast lemmas -/

/-- The send events of the fan-out loop depend only on the snapshot list,
each connection's health and the exclusion -- not on the registry state
threaded through. -/
theorem broadcastLoop_events (health : Nat → Bool) (sid : String) (msg : WsMessage)
    (exclude : Option Nat) (l : List Nat) (st : ConnectionManager) :
    (broadcastLoop health sid msg exclude l st).2 =
      l.filterMap (fun c =>
        if exclude = some c then none
        else if health c then some (c, msg) else none) := by
  induction l generalizing st with
  | nil => rfl
  | cons c cs ih =>
    by_cases he : exclude = some c
    · have hf : (if exclude = some c then none
          else if health c then some (c, msg) else none) =
            (none : Option (Nat × WsMessage)) := by simp [he]
      simp only [broadcastLoop, if_pos he, List.filterMap_cons, hf]
      exact ih st
    · cases hh : health c
      · simp [broadcastLoop, he, hh, ih]
      · simp [broadcastLoop, he, hh, ih]

/-- `c` no longer appears in session `sid`'s connection set nor in
`user_connections`. -/
def deregistered (st : ConnectionManager) (sid : String) (c : Nat) : Prop :=
  c ∉ (lookupKey sid st.active_connections).getD [] ∧
  lookupKey c st.user_connections = none

theorem deregistered_step {st : ConnectionManager} {sid : String} {c : Nat}
    (x : Nat) (h : deregistered st sid c) :
    deregistered
      { st with
        active_connections := updateKey sid (removeConn x) st.active_connections,
        user_connections := eraseKey x st.user_connections } sid c := by
  obtain ⟨h1, h2⟩ := h
  constructor
  · show c ∉ (lookupKey sid (updateKey sid (removeConn x) st.active_connections)).getD []
    rw [lookupKey_updateKey_self]
    cases hq : lookupKey sid st.active_connections with
    | none => simp
    | some conns =>
      rw [hq] at h1
      simp only [Option.getD_some] at h1
      simp only [Option.map_some', Option.getD_some, removeConn]
      intro hcmem
      exact h1 (List.mem_of_mem_filter hcmem)
  · show lookupKey c (eraseKey x st.user_connections) = none
    rw [lookupKey_eraseKey]
    split <;> simp [h2]

theorem deregistered_step_self (st : ConnectionManager) (sid : String) (x : Nat) :
    deregistered
      { st with
        active_connections := updateKey sid (removeConn x) st.active_connections,
        user_connections := eraseKey x st.user_connections } sid x := by
  constructor
  · show x ∉ (lookupKey sid (updateKey sid (removeConn x) st.active_connections)).getD []
    rw [lookupKey_updateKey_self]
    cases hq : lookupKey sid st.active_connections with
    | none => simp
    | some conns => simp [removeConn, List.mem_filter]
  · show lookupKey x (eraseKey x st.user_connections) = none
    rw [lookupKey_eraseKey]
    simp

theorem broadcastLoop_deregistered (health : Nat → Bool) (sid : String)
    (msg : WsMessage) (exclude : Option Nat) (l : List Nat) :
    ∀ (st : ConnectionManager) {c : Nat}, deregistered st sid c →
      deregistered (broadcastLoop health sid msg exclude l st).1 sid c := by
  induction l with
  | nil => intro st c h; exact h
  | cons x cs ih =>
    intro st c h
    by_cases he : exclude = some x
    · simp only [broadcastLoop, if_pos he]
      exact ih st h
    · cases hh : health x
      · simp only [broadcastLoop, if_neg he, hh, Bool.false_eq_true, if_false]
        exact ih _ (deregistered_step x h)
      · simp only [broadcastLoop, if_neg he, hh, if_true]
        exact ih st h

theorem broadcastLoop_removes_failed (health : Nat → Bool) (sid : String)
    (msg : WsMessage) (exclude : Option Nat) {c : Nat}
    (hex : exclude ≠ some c) (hh : health c = false) :
    ∀ (l : List Nat) (st : ConnectionManager), c ∈ l →
      deregistered (broadcastLoop health sid msg exclude l st).1 sid c := by
  intro l
  induction l with
  | nil => intro st hc; cases hc
  | cons x cs ih =>
    intro st hc
    rcases List.mem_cons.mp hc with hceq | hmem
    · subst hceq
      simp only [broadcastLoop, if_neg hex, hh, Bool.false_eq_true, if_false]
      exact broadcastLoop_deregistered health sid msg exclude cs _
        (deregistered_step_self st sid c)
    · by_cases he : exclude = some x
      · simp only [broadcastLoop, if_pos he]
        exact ih st hmem
      · cases hhx : health x
        · simp only [broadcastLoop, if_neg he, hhx, Bool.false_eq_true, if_false]
          exact ih _ hmem
        · simp only [broadcastLoop, if_neg he, hhx, if_true]
          exact ih st hmem

/-- C8: broadcasting to a session containing both failing and healthy
connections delivers the message to every healthy connection other than the
excluded one, removes each connection whose send fails from the session's
set and from `user_connections`, and (being a total function) lets no
exception escape: one broken socket never blocks delivery to the others. -/
theorem claim_C8_broadcast_isolation (health : Nat → Bool) (st : ConnectionManager)
    (sid : String) (msg : WsMessage) (exclude : Option Nat) (conns : List Nat)
    (hc : lookupKey sid st.active_connections = some conns) :
    (∀ c ∈ conns, exclude ≠ some c → health c = true →
      (c, msg) ∈ (broadcast_to_session health st sid msg exclude).2) ∧
    (∀ c ∈ conns, exclude ≠ some c → health c = false →
      c ∉ (lookupKey sid
          (broadcast_to_session health st sid msg exclude).1.active_connections).getD []
        ∧
      lookupKey c (broadcast_to_session health st sid msg exclude).1.user_connections
        = none) := by
  constructor
  · intro c hmem hex hh
    unfold broadcast_to_session
    rw [hc]
    rw [broadcastLoop_events]
    apply List.mem_filterMap.mpr
    exact ⟨c, hmem, by simp [hex, hh]⟩
  · intro c hmem hex hh
    have hd := broadcastLoop_removes_failed health sid msg exclude hex hh conns st hmem
    unfold broadcast_to_session
    rw [hc]
    exact hd

/-- Users and a registry state with one healthy (7) and one broken (5)
connection, for the witnesses. -/
def userAliceInfo : UserInfo := { id := "a", name := "Alice" }

def userBobInfo : UserInfo := { id := "b", name := "Bob" }

def brokenSocketState : ConnectionManager :=
  { active_connections := [("s", [5, 7])],
    user_connections := [(5, ("s", userAliceInfo)), (7, ("s", userBobInfo))],
    sessions := [("s", SessionMeta.mk "s" 0 [userAliceInfo, userBobInfo])],
    user_id_connections := [("a", [5]), ("b", [7])] }

theorem claim_C8_broadcast_isolation_witness :
    lookupKey "s" brokenSocketState.active_connections = some [5, 7] ∧
    ((∀ c ∈ [5, 7], (none : Option Nat) ≠ some c → (fun c => c != 5) c = true →
      (c, WsMessage.relay "chat_message" userAliceInfo "hi") ∈
        (broadcast_to_session (fun c => c != 5) brokenSocketState "s"
          (WsMessage.relay "chat_message" userAliceInfo "hi") none).2) ∧
    (∀ c ∈ [5, 7], (none : Option Nat) ≠ some c → (fun c => c != 5) c = false →
      c ∉ (lookupKey "s"
          (broadcast_to_session (fun c => c != 5) brokenSocketState "s"
            (WsMessage.relay "chat_message" userAliceInfo "hi") none).1.active_connections).getD []
        ∧
      lookupKey c (broadcast_to_session (fun c => c != 5) brokenSocketState "s"
            (WsMessage.relay "chat_message" userAliceInfo "hi") none).1.user_connections
        = none)) :=
  ⟨by decide, claim_C8_broadcast_isolation (fun c => c != 5) brokenSocketState "s"
    (WsMessage.relay "chat_message" userAliceInfo "hi") none [5, 7] (by decide)⟩

/-! ### `ConnectionManager.connect` and `disconnect`

`connect` is split into its sequential stages (the line ranges refer to
`websocket_manager.py`); the event list records the successful sends, and
the durable `CollaborationSession` is threaded as an `Option` (as
`CollaborationSession.get` can return `None`). -/

/-- `connect` lines 35-42: initialize the in-memory session entry when this
is the session's first connection. -/
def initSession (st : ConnectionManager) (sid : String) (now : Nat) :
    ConnectionManager :=
  if (lookupKey sid st.active_connections).isSome then st
  else
    { st with
      active_connections := setKey sid [] st.active_connections,
      sessions := setKey sid (SessionMeta.mk sid now []) st.sessions }

/-- `connect` lines 44-59: add the connection to the session set, record its
user data, track the user→websocket mapping, and append the user to the
in-memory participant list if not already present. -/
def registerConnection (st : ConnectionManager) (ws : Nat) (sid : String)
    (ui : UserInfo) : ConnectionManager :=
  { st with
    active_connections := updateKey sid (insertConn ws) st.active_connections,
    user_connections := setKey ws (sid, ui) st.user_connections,
    user_id_connections :=
      setKey ui.id (insertConn ws ((lookupKey ui.id st.user_id_connections).getD []))
        st.user_id_connections,
    sessions := updateKey sid (fun m =>
      if m.participants.any (fun p => p.id = ui.id) then m
      else { m with participants := m.participants ++ [ui] }) st.sessions }

/-- `connect` lines 85-99: best-effort durable sync.  `add_participant` may
raise the capacity `ValueError`; the exception is caught and logged, leaving
the durable session unchanged. -/
def connectDbSync (db : Option CollaborationSession) (user_id name : String)
    (now : Nat) : Option CollaborationSession :=
  match db with
  | none => none
  | some s =>
    match s.add_participant user_id (if name = "" then "user_" ++ user_id else name)
        ParticipantRole.editor now with
    | Except.ok s' => some s'
    | Except.error _ => some s

/-- `ConnectionManager.connect`: accept, resolve the user id (generating
`freshId` when the caller supplied none), register, broadcast `user_joined`
to the other connections, unicast the `session_info` snapshot to the new
connection, and sync the durable session best-effort.  Returns the updated
registry, the send events in order, and the durable session. -/
def connect (health : Nat → Bool) (st : ConnectionManager) (ws : Nat)
    (sid : String) (ui : UserInfo) (freshId : String) (now : Nat)
    (db : Option CollaborationSession) :
    ConnectionManager × List (Nat × WsMessage) × Option CollaborationSession :=
  let user_id := if ui.id = "" then freshId else ui.id
  let ui' := UserInfo.mk user_id ui.name
  let st2 := registerConnection (initSession st sid now) ws sid ui'
  let cnt := ((lookupKey sid st2.active_connections).getD []).length
  let bres := broadcast_to_session health st2 sid
    (WsMessage.user_joined ui' cnt) (some ws)
  let st3 := bres.1
  let parts := ((lookupKey sid st3.sessions).map (fun m => m.participants)).getD []
  let cnt2 := ((lookupKey sid st3.active_connections).getD []).length
  let snapshot :=
    if health ws then [(ws, WsMessage.session_info sid parts cnt2)] else []
  (st3, bres.2 ++ snapshot, connectDbSync db user_id ui.name now)

/-- `disconnect` lines 109-129: if the session is known, drop the websocket
from its connection set and filter the user out of the in-memory participant
list; when no connection remains, discard the session's in-memory entries,
otherwise schedule a `user_left` broadcast (second component; the message's
count is computed at scheduling time). -/
def sessionCleanup (st : ConnectionManager) (ws : Nat) (sid : String)
    (ui : UserInfo) : ConnectionManager × Option WsMessage :=
  if (lookupKey sid st.active_connections).isSome then
    let st1 := { st with
      active_connections := updateKey sid (removeConn ws) st.active_connections,
      sessions := updateKey sid (fun m => SessionMeta.mk m.id m.created_at
        (m.participants.filter (fun p => p.id ≠ ui.id))) st.sessions }
    let remaining := (lookupKey sid st1.active_connections).getD []
    if remaining.isEmpty then
      ({ st1 with
        active_connections := eraseKey sid st1.active_connections,
        sessions := eraseKey sid st1.sessions }, none)
    else (st1, some (WsMessage.user_left ui remaining.length))
  else (st, none)

/-- `disconnect` lines 131-138: delete the `user_connections` entry and
discard the websocket from the user-id mapping (dropping the user's entry
when its set becomes empty). -/
def userMapCleanup (st : ConnectionManager) (ws : Nat) (user_id : String) :
    ConnectionManager :=
  let st3 := { st with user_connections := eraseKey ws st.user_connections }
  if user_id ≠ "" ∧ (lookupKey user_id st3.user_id_connections).isSome then
    let conns := removeConn ws ((lookupKey user_id st3.user_id_connections).getD [])
    if conns.isEmpty then
      { st3 with user_id_connections := eraseKey user_id st3.user_id_connections }
    else
      { st3 with user_id_connections := setKey user_id conns st3.user_id_connections }
  else st3

/-- `ConnectionManager.disconnect`: no-op for an unknown websocket;
otherwise run the session cleanup and the map cleanup, schedule the
best-effort durable `remove_participant`, and deliver the scheduled
`user_left` broadcast (the created task runs after the synchronous
cleanup). -/
def disconnect (health : Nat → Bool) (st : ConnectionManager) (ws : Nat)
    (db : Option CollaborationSession) (now : Nat) :
    ConnectionManager × List (Nat × WsMessage) × Option CollaborationSession :=
  match lookupKey ws st.user_connections with
  | none => (st, [], db)
  | some su =>
    let sid := su.1
    let ui := su.2
    let sc := sessionCleanup st ws sid ui
    let st4 := userMapCleanup sc.1 ws ui.id
    let db' :=
      if ui.id ≠ "" then db.map (fun s => s.remove_participant ui.id now)
      else db
    match sc.2 with
    | none => (st4, [], db')
    | some msg =>
      let bres := broadcast_to_session health st4 sid msg none
      (bres.1, bres.2, db')

/-- `ConnectionManager.handle_message`: stamp the sender and broadcast to
the sender's session; `chat_message` is echoed to everyone including the
sender, the other kinds exclude the sender. -/
def handle_message (health : Nat → Bool) (st : ConnectionManager) (ws : Nat)
    (mtype : String) (data : String) :
    ConnectionManager × List (Nat × WsMessage) :=
  match lookupKey ws st.user_connections with
  | none => (st, [])
  | some su =>
    let msg := WsMessage.relay mtype su.2 data
    if mtype = "chat_message" then
      broadcast_to_session health st su.1 msg none
    else
      broadcast_to_session health st su.1 msg (some ws)

/-! ### Connect lemmas and claim C1 -/

theorem mem_insertConn_self (ws : Nat) (l : List Nat) : ws ∈ insertConn ws l := by
  unfold insertConn
  split
  · assumption
  · simp

theorem initSession_active_isSome (st : ConnectionManager) (sid : String)
    (now : Nat) :
    (lookupKey sid (initSession st sid now).active_connections).isSome := by
  unfold initSession
  split
  · assumption
  · simp [lookupKey_setKey_self]

theorem registerConnection_active (st : ConnectionManager) (ws : Nat)
    (sid : String) (ui : UserInfo)
    (h : (lookupKey sid st.active_connections).isSome) :
    ∃ l, lookupKey sid (registerConnection st ws sid ui).active_connections =
        some l ∧ ws ∈ l := by
  obtain ⟨l0, hl0⟩ := Option.isSome_iff_exists.mp h
  refine ⟨insertConn ws l0, ?_, mem_insertConn_self ws l0⟩
  show lookupKey sid (updateKey sid (insertConn ws) st.active_connections) = _
  rw [lookupKey_updateKey_self, hl0]
  rfl

theorem registerConnection_user (st : ConnectionManager) (ws : Nat)
    (sid : String) (ui : UserInfo) :
    lookupKey ws (registerConnection st ws sid ui).user_connections =
      some (sid, ui) := by
  show lookupKey ws (setKey ws (sid, ui) st.user_connections) = _
  exact lookupKey_setKey_self ws (sid, ui) st.user_connections

/-- Within the `user_joined` fan-out (which excludes the new websocket), the
new websocket stays registered in both maps: failures only deregister the
failing connection, which is never the excluded one. -/
theorem broadcastLoop_preserves_excluded (health : Nat → Bool) (sid : String)
    (msg : WsMessage) (ws : Nat) (l : List Nat) :
    ∀ (st : ConnectionManager) (v : String × UserInfo),
      ws ∈ (lookupKey sid st.active_connections).getD [] →
      lookupKey ws st.user_connections = some v →
      ws ∈ (lookupKey sid
          (broadcastLoop health sid msg (some ws) l st).1.active_connections).getD []
        ∧
      lookupKey ws
        (broadcastLoop health sid msg (some ws) l st).1.user_connections = some v := by
  induction l with
  | nil => intro st v h1 h2; exact ⟨h1, h2⟩
  | cons c cs ih =>
    intro st v h1 h2
    by_cases he : (some ws : Option Nat) = some c
    · simp only [broadcastLoop, if_pos he]
      exact ih st v h1 h2
    · have hcw : c ≠ ws := fun hc => he (by rw [hc])
      cases hh : health c
      · simp only [broadcastLoop, if_neg he, hh, Bool.false_eq_true, if_false]
        apply ih
        · show ws ∈ (lookupKey sid
            (updateKey sid (removeConn c) st.active_connections)).getD []
          rw [lookupKey_updateKey_self]
          cases hq : lookupKey sid st.active_connections with
          | none => rw [hq] at h1; simp at h1
          | some conns =>
            rw [hq] at h1
            simp only [Option.getD_some] at h1
            simp only [Option.map_some', Option.getD_some, removeConn]
            exact List.mem_filter.mpr ⟨h1, by simp [Ne.symm hcw]⟩
        · show lookupKey ws (eraseKey c st.user_connections) = some v
          rw [lookupKey_eraseKey, if_neg hcw]
          exact h2
      · simp only [broadcastLoop, if_neg he, hh, if_true]
        exact ih st v h1 h2

theorem broadcast_to_session_eq (health : Nat → Bool) (st : ConnectionManager)
    (sid : String) (msg : WsMessage) (exclude : Option Nat) (conns : List Nat)
    (hc : lookupKey sid st.active_connections = some conns) :
    broadcast_to_session health st sid msg exclude =
      broadcastLoop health sid msg exclude conns st := by
  unfold broadcast_to_session
  rw [hc]

theorem connectDbSync_at_capacity {dbs : CollaborationSession}
    (h : dbs.max_participants ≤ dbs.participants.length)
    (uid name : String) (now : Nat) :
    connectDbSync (some dbs) uid name now = some dbs := by
  unfold connectDbSync CollaborationSession.add_participant
  simp [h]

/-- C1 (amended): a live join is never rejected for capacity.  Even when the
durable Collaboration Session is at its capacity limit, `connect` registers
the websocket in both the session-keyed and user-keyed maps; only the
best-effort durable `add_participant` raises the capacity `ValueError`,
which is caught, leaving the durable roster unchanged. -/
theorem claim_C1_join_not_rejected (health : Nat → Bool) (st : ConnectionManager)
    (ws : Nat) (sid : String) (ui : UserInfo) (freshId : String) (now : Nat)
    (dbs : CollaborationSession)
    (hcap : dbs.max_participants ≤ dbs.participants.length) :
    ws ∈ (lookupKey sid
        (connect health st ws sid ui freshId now (some dbs)).1.active_connections).getD []
      ∧
    (lookupKey ws
        (connect health st ws sid ui freshId now (some dbs)).1.user_connections).isSome
      ∧
    (connect health st ws sid ui freshId now (some dbs)).2.2 = some dbs := by
  unfold connect
  set user_id := if ui.id = "" then freshId else ui.id with huid
  set ui' := UserInfo.mk user_id ui.name with hui'
  set st2 := registerConnection (initSession st sid now) ws sid ui' with hst2
  obtain ⟨l, hl, hwl⟩ := registerConnection_active (initSession st sid now) ws sid ui'
    (initSession_active_isSome st sid now)
  have huser := registerConnection_user (initSession st sid now) ws sid ui'
  rw [← hst2] at hl huser
  have hb := broadcastLoop_preserves_excluded health sid
    (WsMessage.user_joined ui' ((lookupKey sid st2.active_connections).getD []).length)
    ws l st2 (sid, ui') (by rw [hl]; exact hwl) huser
  have hbeq := broadcast_to_session_eq health st2 sid
    (WsMessage.user_joined ui'
      ((lookupKey sid st2.active_connections).getD []).length)
    (some ws) l hl
  refine ⟨?_, ?_, ?_⟩
  · show ws ∈ (lookupKey sid (broadcast_to_session health st2 sid
      (WsMessage.user_joined ui'
        ((lookupKey sid st2.active_connections).getD []).length)
      (some ws)).1.active_connections).getD []
    rw [hbeq]
    exact hb.1
  · show (lookupKey ws (broadcast_to_session health st2 sid
      (WsMessage.user_joined ui'
        ((lookupKey sid st2.active_connections).getD []).length)
      (some ws)).1.user_connections).isSome
    rw [hbeq, hb.2]
    rfl
  · exact connectDbSync_at_capacity hcap user_id ui.name now

/-- Durable participants and "Standup" session at capacity (2 of 2). -/
def participantAliceDb : SessionParticipant :=
  { user_id := "a", username := "Alice", role := ParticipantRole.editor,
    joined_at := 0, last_activity := 0, is_active := true }

def participantBobDb : SessionParticipant :=
  { user_id := "b", username := "Bob", role := ParticipantRole.editor,
    joined_at := 0, last_activity := 0, is_active := true }

def fullDbSession : CollaborationSession :=
  { host_user_id := "a", name := "Standup", session_code := "JOIN42",
    is_active := true, max_participants := 2,
    participants := [participantAliceDb, participantBobDb],
    shared_code := none, created_at := 0, ended_at := none, last_activity := 0 }

def userCarolInfo : UserInfo := { id := "c", name := "Carol" }

/-- Live registry matching the full "Standup" session: A on socket 0,
B on socket 1. -/
def standupLiveState : ConnectionManager :=
  { active_connections := [("s", [0, 1])],
    user_connections := [(0, ("s", userAliceInfo)), (1, ("s", userBobInfo))],
    sessions := [("s", SessionMeta.mk "s" 0 [userAliceInfo, userBobInfo])],
    user_id_connections := [("a", [0]), ("b", [1])] }

/-- C1 -- counterexample: with the durable "Standup" session at its
capacity limit (2 active of 2), user C's live join on socket 2 is not
rejected with a SessionFull condition: the connection is registered in both
maps, C is appended to the in-memory roster, and C receives the
`session_info` snapshot; only the durable roster is left unchanged (the
capacity `ValueError` is caught and logged). -/
theorem claim_C1_counterexample :
    fullDbSession.get_active_participants.length = fullDbSession.max_participants ∧
    2 ∈ (lookupKey "s" (connect (fun _ => true) standupLiveState 2 "s"
        userCarolInfo "f" 9 (some fullDbSession)).1.active_connections).getD [] ∧
    lookupKey 2 (connect (fun _ => true) standupLiveState 2 "s"
        userCarolInfo "f" 9 (some fullDbSession)).1.user_connections =
      some ("s", userCarolInfo) ∧
    (2, WsMessage.session_info "s" [userAliceInfo, userBobInfo, userCarolInfo] 3) ∈
      (connect (fun _ => true) standupLiveState 2 "s"
        userCarolInfo "f" 9 (some fullDbSession)).2.1 ∧
    (connect (fun _ => true) standupLiveState 2 "s"
        userCarolInfo "f" 9 (some fullDbSession)).2.2 = some fullDbSession := by
  refine ⟨?_, ?_, ?_, ?_, ?_⟩ <;> decide

theorem claim_C1_join_not_rejected_witness :
    fullDbSession.max_participants ≤ fullDbSession.participants.length ∧
    (2 ∈ (lookupKey "s" (connect (fun _ => true) standupLiveState 2 "s"
        userCarolInfo "f" 9 (some fullDbSession)).1.active_connections).getD []
      ∧
    (lookupKey 2 (connect (fun _ => true) standupLiveState 2 "s"
        userCarolInfo "f" 9 (some fullDbSession)).1.user_connections).isSome
      ∧
    (connect (fun _ => true) standupLiveState 2 "s"
        userCarolInfo "f" 9 (some fullDbSession)).2.2 = some fullDbSession) :=
  ⟨by decide, claim_C1_join_not_rejected (fun _ => true) standupLiveState 2 "s"
    userCarolInfo "f" 9 fullDbSession (by decide)⟩

/-! ### Disconnect lemmas and claim C9 -/

theorem broadcastLoop_user_id_connections (health : Nat → Bool) (sid : String)
    (msg : WsMessage) (exclude : Option Nat) (l : List Nat) :
    ∀ st : ConnectionManager,
      (broadcastLoop health sid msg exclude l st).1.user_id_connections =
        st.user_id_connections := by
  induction l with
  | nil => intro st; rfl
  | cons c cs ih =>
    intro st
    by_cases he : exclude = some c
    · simp only [broadcastLoop, if_pos he]
      exact ih st
    · cases hh : health c
      · simp only [broadcastLoop, if_neg he, hh, Bool.false_eq_true, if_false]
        exact ih _
      · simp only [broadcastLoop, if_neg he, hh, if_true]
        exact ih st

theorem not_mem_removeConn_self (ws : Nat) (l : List Nat) :
    ws ∉ removeConn ws l := by
  simp [removeConn, List.mem_filter]

/-- User A holding two live sockets (0 and 1) in session "s". -/
def twoSocketState : ConnectionManager :=
  { active_connections := [("s", [0, 1])],
    user_connections := [(0, ("s", userAliceInfo)), (1, ("s", userAliceInfo))],
    sessions := [("s", SessionMeta.mk "s" 0 [userAliceInfo])],
    user_id_connections := [("a", [0, 1])] }

/-- C9 -- counterexample: user "a" holds live sockets 0 and 1 in session
"s"; disconnecting socket 0 is NOT the user's last live connection (socket 1
remains registered under "a"), yet a `user_left` event for "a" is broadcast
to the remaining connection and "a" is removed from the in-memory roster --
contradicting the claim's "only if it was the user's last live connection in
the session". -/
theorem claim_C9_counterexample :
    lookupKey "a" (disconnect (fun _ => true) twoSocketState 0 none
        5).1.user_id_connections = some [1] ∧
    (1, WsMessage.user_left userAliceInfo 1) ∈
      (disconnect (fun _ => true) twoSocketState 0 none 5).2.1 ∧
    (lookupKey "s" (disconnect (fun _ => true) twoSocketState 0 none
        5).1.sessions).map (fun m => m.participants) = some [] := by
  refine ⟨?_, ?_, ?_⟩ <;> decide

theorem sessionCleanup_spec_empty {st : ConnectionManager} {ws : Nat}
    {sid : String} {conns : List Nat} (ui : UserInfo)
    (hc : lookupKey sid st.active_connections = some conns)
    (he : (removeConn ws conns).isEmpty = true) :
    (sessionCleanup st ws sid ui).2 = none ∧
    lookupKey sid (sessionCleanup st ws sid ui).1.active_connections = none ∧
    lookupKey sid (sessionCleanup st ws sid ui).1.sessions = none ∧
    (sessionCleanup st ws sid ui).1.user_connections = st.user_connections ∧
    (sessionCleanup st ws sid ui).1.user_id_connections = st.user_id_connections := by
  have hsome : (lookupKey sid st.active_connections).isSome = true := by
    rw [hc]
    rfl
  have hrem : (lookupKey sid (updateKey sid (removeConn ws)
      st.active_connections)).getD [] = removeConn ws conns := by
    rw [lookupKey_updateKey_self, hc]
    rfl
  unfold sessionCleanup
  rw [if_pos hsome]
  simp only [hrem, he, if_true]
  refine ⟨by trivial, ?_, ?_, by trivial, by trivial⟩
  · rw [lookupKey_eraseKey]
    simp
  · rw [lookupKey_eraseKey]
    simp

theorem sessionCleanup_spec_nonempty {st : ConnectionManager} {ws : Nat}
    {sid : String} {conns : List Nat} (ui : UserInfo)
    (hc : lookupKey sid st.active_connections = some conns)
    (he : (removeConn ws conns).isEmpty = false) :
    (sessionCleanup st ws sid ui).2 =
      some (WsMessage.user_left ui (removeConn ws conns).length) ∧
    lookupKey sid (sessionCleanup st ws sid ui).1.active_connections =
      some (removeConn ws conns) ∧
    (sessionCleanup st ws sid ui).1.user_connections = st.user_connections ∧
    (sessionCleanup st ws sid ui).1.user_id_connections = st.user_id_connections := by
  have hsome : (lookupKey sid st.active_connections).isSome = true := by
    rw [hc]
    rfl
  have hrem : (lookupKey sid (updateKey sid (removeConn ws)
      st.active_connections)).getD [] = removeConn ws conns := by
    rw [lookupKey_updateKey_self, hc]
    rfl
  unfold sessionCleanup
  rw [if_pos hsome]
  simp only [hrem, he, Bool.false_eq_true, if_false]
  refine ⟨by trivial, ?_, by trivial, by trivial⟩
  show lookupKey sid (updateKey sid (removeConn ws) st.active_connections) = _
  rw [lookupKey_updateKey_self, hc]
  rfl

theorem userMapCleanup_spec (st : ConnectionManager) (ws : Nat)
    (user_id : String) :
    lookupKey ws (userMapCleanup st ws user_id).user_connections = none ∧
    (userMapCleanup st ws user_id).active_connections = st.active_connections ∧
    (userMapCleanup st ws user_id).sessions = st.sessions ∧
    (user_id ≠ "" →
      ws ∉ (lookupKey user_id
        (userMapCleanup st ws user_id).user_id_connections).getD []) := by
  have herase : lookupKey ws (eraseKey ws st.user_connections) = none := by
    rw [lookupKey_eraseKey]
    simp
  unfold userMapCleanup
  by_cases hcond : user_id ≠ "" ∧
      (lookupKey user_id
        ({ st with user_connections := eraseKey ws st.user_connections
          }.user_id_connections)).isSome
  · rw [if_pos hcond]
    by_cases hie : (removeConn ws ((lookupKey user_id
        ({ st with user_connections := eraseKey ws st.user_connections
          }.user_id_connections)).getD [])).isEmpty
    · rw [if_pos hie]
      refine ⟨herase, rfl, rfl, fun _ => ?_⟩
      show ws ∉ (lookupKey user_id (eraseKey user_id _)).getD []
      rw [lookupKey_eraseKey]
      simp
    · rw [if_neg hie]
      refine ⟨herase, rfl, rfl, fun _ => ?_⟩
      show ws ∉ (lookupKey user_id (setKey user_id _ _)).getD []
      rw [lookupKey_setKey_self]
      exact not_mem_removeConn_self ws _
  · rw [if_neg hcond]
    refine ⟨herase, rfl, rfl, fun hne => ?_⟩
    rcases not_and_or.mp hcond with hx | hx
    · exact absurd hne hx
    · show ws ∉ (lookupKey user_id st.user_id_connections).getD []
      rcases hq : lookupKey user_id st.user_id_connections with _ | v
      · simp
      · rw [hq] at hx
        exact absurd rfl hx

/-- C9 (amended): disconnecting a live connection removes it from both the
session-keyed and user-keyed maps and removes the user's participant entry
(in-memory and durable); if the session still has remaining live
connections, a `user_left` event is broadcast to the remaining healthy
connections regardless of whether the disconnected socket was the user's
last live connection; if no live connection remains, the session's in-memory
entries are discarded while the durable Session persists. -/
theorem claim_C9_disconnect (health : Nat → Bool) (st : ConnectionManager)
    (ws : Nat) (sid : String) (ui : UserInfo)
    (db : Option CollaborationSession) (now : Nat) (conns : List Nat)
    (hws : lookupKey ws st.user_connections = some (sid, ui))
    (hc : lookupKey sid st.active_connections = some conns) :
    lookupKey ws (disconnect health st ws db now).1.user_connections = none ∧
    ws ∉ (lookupKey sid
      (disconnect health st ws db now).1.active_connections).getD [] ∧
    (ui.id ≠ "" → ws ∉ (lookupKey ui.id
      (disconnect health st ws db now).1.user_id_connections).getD []) ∧
    ((removeConn ws conns).isEmpty = true →
      lookupKey sid (disconnect health st ws db now).1.active_connections = none ∧
      lookupKey sid (disconnect health st ws db now).1.sessions = none) ∧
    ((removeConn ws conns).isEmpty = false →
      ∀ c ∈ removeConn ws conns, health c = true →
        (c, WsMessage.user_left ui (removeConn ws conns).length) ∈
          (disconnect health st ws db now).2.1) ∧
    (disconnect health st ws db now).2.2.isSome = db.isSome := by
  have hdb : (if ui.id ≠ "" then
      db.map (fun s => s.remove_participant ui.id now) else db).isSome =
        db.isSome := by
    split
    · simp
    · rfl
  unfold disconnect
  rw [hws]
  cases hre : (removeConn ws conns).isEmpty with
  | true =>
    obtain ⟨h2, hact, hsess, husr, huid⟩ := sessionCleanup_spec_empty ui hc hre
    obtain ⟨m1, m2, m3, m4⟩ :=
      userMapCleanup_spec (sessionCleanup st ws sid ui).1 ws ui.id
    simp only [h2]
    refine ⟨m1, ?_, m4, fun _ => ⟨?_, ?_⟩,
      fun hcon => absurd hcon (by decide), hdb⟩
    · rw [m2, hact]
      simp
    · rw [m2, hact]
    · rw [m3, hsess]
  | false =>
    obtain ⟨h2, hact, husr, huid⟩ := sessionCleanup_spec_nonempty ui hc hre
    obtain ⟨m1, m2, m3, m4⟩ :=
      userMapCleanup_spec (sessionCleanup st ws sid ui).1 ws ui.id
    simp only [h2]
    have hact4 : lookupKey sid
        (userMapCleanup (sessionCleanup st ws sid ui).1 ws
          ui.id).active_connections = some (removeConn ws conns) := by
      rw [m2, hact]
    have hbeq := broadcast_to_session_eq health
      (userMapCleanup (sessionCleanup st ws sid ui).1 ws ui.id) sid
      (WsMessage.user_left ui (removeConn ws conns).length) none
      (removeConn ws conns) hact4
    have hdereg : deregistered
        (userMapCleanup (sessionCleanup st ws sid ui).1 ws ui.id) sid ws := by
      constructor
      · rw [hact4]
        exact not_mem_removeConn_self ws conns
      · exact m1
    have hpres := broadcastLoop_deregistered health sid
      (WsMessage.user_left ui (removeConn ws conns).length) none
      (removeConn ws conns)
      (userMapCleanup (sessionCleanup st ws sid ui).1 ws ui.id) hdereg
    refine ⟨?_, ?_, ?_,
      fun hcon => absurd hcon (by decide), fun _ => ?_, hdb⟩
    · show lookupKey ws (broadcast_to_session health _ sid _
        none).1.user_connections = none
      rw [hbeq]
      exact hpres.2
    · show ws ∉ (lookupKey sid (broadcast_to_session health _ sid _
        none).1.active_connections).getD []
      rw [hbeq]
      exact hpres.1
    · show ui.id ≠ "" → ws ∉ (lookupKey ui.id (broadcast_to_session health _ sid _
        none).1.user_id_connections).getD []
      rw [hbeq]
      intro hne
      rw [broadcastLoop_user_id_connections]
      exact m4 hne
    · intro c hcm hhc
      show (c, _) ∈ (broadcast_to_session health _ sid _ none).2
      rw [hbeq, broadcastLoop_events]
      apply List.mem_filterMap.mpr
      exact ⟨c, hcm, by simp [hhc]⟩

theorem claim_C9_disconnect_witness :
    lookupKey 0 twoSocketState.user_connections = some ("s", userAliceInfo) ∧
    lookupKey "s" twoSocketState.active_connections = some [0, 1] ∧
    (lookupKey 0 (disconnect (fun _ => true) twoSocketState 0 none
        5).1.user_connections = none ∧
      0 ∉ (lookupKey "s" (disconnect (fun _ => true) twoSocketState 0 none
        5).1.active_connections).getD [] ∧
      (userAliceInfo.id ≠ "" → 0 ∉ (lookupKey userAliceInfo.id
        (disconnect (fun _ => true) twoSocketState 0 none
          5).1.user_id_connections).getD []) ∧
      ((removeConn 0 [0, 1]).isEmpty = true →
        lookupKey "s" (disconnect (fun _ => true) twoSocketState 0 none
          5).1.active_connections = none ∧
        lookupKey "s" (disconnect (fun _ => true) twoSocketState 0 none
          5).1.sessions = none) ∧
      ((removeConn 0 [0, 1]).isEmpty = false →
        ∀ c ∈ removeConn 0 [0, 1], (fun _ => true : Nat → Bool) c = true →
          (c, WsMessage.user_left userAliceInfo (removeConn 0 [0, 1]).length) ∈
            (disconnect (fun _ => true) twoSocketState 0 none 5).2.1) ∧
      (disconnect (fun _ => true) twoSocketState 0 none 5).2.2.isSome =
        (none : Option CollaborationSession).isSome) :=
  ⟨by decide, by decide,
   claim_C9_disconnect (fun _ => true) twoSocketState 0 "s" userAliceInfo none 5
     [0, 1] (by decide) (by decide)⟩

/-! ### Operation traces and claim C5

`enhanced_api.websocket_endpoint` drives the manager: `connect` on open,
`handle_message` per received message, `disconnect` on close.  A trace of
these operations yields the global ordered list of send events. -/

/-- One top-level operation on the live registry. -/
inductive Op where
  | connectOp (ws : Nat) (sid : String) (ui : UserInfo) (freshId : String)
      (now : Nat)
  | messageOp (ws : Nat) (mtype : String) (data : String)
  | disconnectOp (ws : Nat) (now : Nat)
  deriving Repr, DecidableEq

/-- The websocket an operation acts on. -/
def Op.socket : Op → Nat
  | connectOp ws _ _ _ _ => ws
  | messageOp ws _ _ => ws
  | disconnectOp ws _ => ws

/-- Apply one operation (the durable session is taken absent -- a legitimate
run of the best-effort store sync, which cannot affect the live path). -/
def applyOp (health : Nat → Bool) (st : ConnectionManager) :
    Op → ConnectionManager × List (Nat × WsMessage)
  | Op.connectOp ws sid ui freshId now =>
    ((connect health st ws sid ui freshId now none).1,
     (connect health st ws sid ui freshId now none).2.1)
  | Op.messageOp ws mtype data => handle_message health st ws mtype data
  | Op.disconnectOp ws now =>
    ((disconnect health st ws none now).1, (disconnect health st ws none now).2.1)

/-- Run a list of operations, concatenating their send events in order. -/
def runOps (health : Nat → Bool) (st : ConnectionManager) :
    List Op → ConnectionManager × List (Nat × WsMessage)
  | [] => (st, [])
  | op :: ops =>
    ((runOps health (applyOp health st op).1 ops).1,
     (applyOp health st op).2 ++ (runOps health (applyOp health st op).1 ops).2)

/-- `ws` is known to the registry: it appears in some session's connection
set or in `user_connections`. -/
def knownConn (st : ConnectionManager) (ws : Nat) : Prop :=
  (∃ e ∈ st.active_connections, ws ∈ e.2) ∨
    (lookupKey ws st.user_connections).isSome = true

instance (st : ConnectionManager) (ws : Nat) : Decidable (knownConn st ws) := by
  unfold knownConn
  infer_instance

/-- Targets and health of loop events, from the event formula. -/
theorem broadcastLoop_event_elim {health : Nat → Bool} {sid : String}
    {msg : WsMessage} {ex : Option Nat} {l : List Nat}
    {st : ConnectionManager} {c : Nat} {m : WsMessage}
    (h : (c, m) ∈ (broadcastLoop health sid msg ex l st).2) :
    c ∈ l ∧ health c = true ∧ ex ≠ some c ∧ m = msg := by
  rw [broadcastLoop_events] at h
  obtain ⟨a, ha, hf⟩ := List.mem_filterMap.mp h
  by_cases he : ex = some a
  · rw [if_pos he] at hf
    cases hf
  · rw [if_neg he] at hf
    cases hh : health a with
    | false => rw [hh] at hf; simp at hf
    | true =>
      rw [hh] at hf
      simp only [if_true] at hf
      obtain ⟨hac, hmm⟩ := Prod.mk.injEq .. ▸ Option.some.inj hf
      subst hac
      exact ⟨ha, hh, he, hmm.symm⟩

/-- No loop event ever targets the excluded connection. -/
theorem broadcastLoop_not_excluded {health : Nat → Bool} {sid : String}
    {msg : WsMessage} {l : List Nat} {st : ConnectionManager} {c : Nat}
    {m : WsMessage}
    (h : (c, m) ∈ (broadcastLoop health sid msg (some c) l st).2) : False :=
  (broadcastLoop_event_elim h).2.2.1 rfl

/-- Any event of `broadcast_to_session` targets a connection registered in
the state's session sets, and only healthy targets receive events. -/
theorem broadcast_event_elim {health : Nat → Bool} {st : ConnectionManager}
    {sid : String} {msg : WsMessage} {ex : Option Nat} {c : Nat} {m : WsMessage}
    (h : (c, m) ∈ (broadcast_to_session health st sid msg ex).2) :
    (∃ e ∈ st.active_connections, c ∈ e.2) ∧ health c = true ∧ ex ≠ some c := by
  unfold broadcast_to_session at h
  cases hq : lookupKey sid st.active_connections with
  | none => rw [hq] at h; cases h
  | some conns =>
    rw [hq] at h
    obtain ⟨hcl, hh, hex, _⟩ := broadcastLoop_event_elim h
    exact ⟨⟨(sid, conns), lookupKey_mem hq, hcl⟩, hh, hex⟩

theorem activeMem_initSession {st : ConnectionManager} {sid : String}
    {now : Nat} {c : Nat}
    (h : ∃ e ∈ (initSession st sid now).active_connections, c ∈ e.2) :
    ∃ e ∈ st.active_connections, c ∈ e.2 := by
  unfold initSession at h
  split at h
  · exact h
  · obtain ⟨e, he, hc⟩ := h
    simp only [setKey] at he
    rcases List.mem_cons.mp he with rfl | hmem
    · cases hc
    · exact ⟨e, List.mem_of_mem_filter hmem, hc⟩

theorem activeMem_updateKey_shrink {A : List (String × List Nat)} {k : String}
    {f : List Nat → List Nat} {c : Nat}
    (hf : ∀ v, c ∈ f v → c ∈ v)
    (h : ∃ e ∈ updateKey k f A, c ∈ e.2) :
    ∃ e ∈ A, c ∈ e.2 := by
  obtain ⟨e, he, hc⟩ := h
  obtain ⟨kv, hkv, hveq⟩ := List.mem_map.mp he
  by_cases hk : kv.1 = k
  · rw [if_pos hk] at hveq
    subst hveq
    exact ⟨kv, hkv, hf _ hc⟩
  · rw [if_neg hk] at hveq
    subst hveq
    exact ⟨kv, hkv, hc⟩

theorem activeMem_eraseKey {A : List (String × List Nat)} {k : String} {c : Nat}
    (h : ∃ e ∈ eraseKey k A, c ∈ e.2) : ∃ e ∈ A, c ∈ e.2 := by
  obtain ⟨e, he, hc⟩ := h
  exact ⟨e, List.mem_of_mem_filter he, hc⟩

theorem activeMem_registerConnection {st : ConnectionManager} {ws : Nat}
    {sid : String} {ui : UserInfo} {c : Nat}
    (h : ∃ e ∈ (registerConnection st ws sid ui).active_connections, c ∈ e.2) :
    (∃ e ∈ st.active_connections, c ∈ e.2) ∨ c = ws := by
  obtain ⟨e, he, hc⟩ := h
  obtain ⟨kv, hkv, hveq⟩ := List.mem_map.mp he
  by_cases hk : kv.1 = sid
  · rw [if_pos hk] at hveq
    subst hveq
    simp only [insertConn] at hc
    split at hc
    · exact Or.inl ⟨kv, hkv, hc⟩
    · rcases List.mem_append.mp hc with hin | hone
      · exact Or.inl ⟨kv, hkv, hin⟩
      · simp only [List.mem_singleton] at hone
        exact Or.inr hone
  · rw [if_neg hk] at hveq
    subst hveq
    exact Or.inl ⟨kv, hkv, hc⟩

theorem userConn_registerConnection {st : ConnectionManager} {ws : Nat}
    {sid : String} {ui : UserInfo} {c : Nat}
    (h : (lookupKey c (registerConnection st ws sid ui).user_connections).isSome
      = true) :
    (lookupKey c st.user_connections).isSome = true ∨ c = ws := by
  by_cases hcw : c = ws
  · exact Or.inr hcw
  · left
    have : lookupKey c (setKey ws (sid, ui) st.user_connections) =
        lookupKey c st.user_connections :=
      lookupKey_setKey_ne _ _ (fun hh => hcw hh.symm)
    rw [show (registerConnection st ws sid ui).user_connections =
      setKey ws (sid, ui) st.user_connections from rfl, this] at h
    exact h

theorem userConn_eraseKey {U : List (Nat × (String × UserInfo))} {x c : Nat}
    (h : (lookupKey c (eraseKey x U)).isSome = true) :
    (lookupKey c U).isSome = true := by
  rw [lookupKey_eraseKey] at h
  split at h
  · cases h
  · exact h

theorem broadcastLoop_not_known (health : Nat → Bool) (sid : String)
    (msg : WsMessage) (ex : Option Nat) (l : List Nat) :
    ∀ (st : ConnectionManager) {c : Nat}, ¬ knownConn st c →
      ¬ knownConn (broadcastLoop health sid msg ex l st).1 c := by
  induction l with
  | nil => intro st c h; exact h
  | cons x cs ih =>
    intro st c h
    by_cases he : ex = some x
    · simp only [broadcastLoop, if_pos he]
      exact ih st h
    · cases hh : health x
      · simp only [broadcastLoop, if_neg he, hh, Bool.false_eq_true, if_false]
        apply ih
        intro hk
        apply h
        cases hk with
        | inl ha =>
          exact Or.inl (activeMem_updateKey_shrink
            (fun v hv => List.mem_of_mem_filter hv) ha)
        | inr hu => exact Or.inr (userConn_eraseKey hu)
      · simp only [broadcastLoop, if_neg he, hh, if_true]
        exact ih st h

theorem broadcast_not_known {health : Nat → Bool} {st : ConnectionManager}
    {sid : String} {msg : WsMessage} {ex : Option Nat} {c : Nat}
    (h : ¬ knownConn st c) :
    ¬ knownConn (broadcast_to_session health st sid msg ex).1 c := by
  unfold broadcast_to_session
  cases hq : lookupKey sid st.active_connections with
  | none => exact h
  | some conns => exact broadcastLoop_not_known health sid msg ex conns st h

theorem initSession_not_known {st : ConnectionManager} {sid : String}
    {now : Nat} {c : Nat} (h : ¬ knownConn st c) :
    ¬ knownConn (initSession st sid now) c := by
  intro hk
  apply h
  cases hk with
  | inl ha => exact Or.inl (activeMem_initSession ha)
  | inr hu =>
    unfold initSession at hu
    split at hu
    · exact Or.inr hu
    · exact Or.inr hu

theorem registerConnection_not_known {st : ConnectionManager} {ws : Nat}
    {sid : String} {ui : UserInfo} {c : Nat}
    (h : ¬ knownConn st c) (hne : ws ≠ c) :
    ¬ knownConn (registerConnection st ws sid ui) c := by
  intro hk
  cases hk with
  | inl ha =>
    rcases activeMem_registerConnection ha with hmem | hcw
    · exact h (Or.inl hmem)
    · exact hne hcw.symm
  | inr hu =>
    rcases userConn_registerConnection hu with hu' | hcw
    · exact h (Or.inr hu')
    · exact hne hcw.symm

theorem connect_not_known {health : Nat → Bool} {st : ConnectionManager}
    {ws : Nat} {sid : String} {ui : UserInfo} {freshId : String} {now : Nat}
    {db : Option CollaborationSession} {c : Nat}
    (h : ¬ knownConn st c) (hne : ws ≠ c) :
    ¬ knownConn (connect health st ws sid ui freshId now db).1 c := by
  unfold connect
  exact broadcast_not_known
    (registerConnection_not_known (initSession_not_known h) hne)

theorem handle_message_not_known {health : Nat → Bool} {st : ConnectionManager}
    {ws : Nat} {mtype data : String} {c : Nat}
    (h : ¬ knownConn st c) :
    ¬ knownConn (handle_message health st ws mtype data).1 c := by
  unfold handle_message
  cases hq : lookupKey ws st.user_connections with
  | none => exact h
  | some su =>
    by_cases hm : mtype = "chat_message"
    · simp only [if_pos hm]
      exact broadcast_not_known h
    · simp only [if_neg hm]
      exact broadcast_not_known h

theorem sessionCleanup_not_known {st : ConnectionManager} {ws : Nat}
    {sid : String} {ui : UserInfo} {c : Nat} (h : ¬ knownConn st c) :
    ¬ knownConn (sessionCleanup st ws sid ui).1 c := by
  unfold sessionCleanup
  split
  · dsimp only
    split
    · intro hk
      apply h
      cases hk with
      | inl ha =>
        exact Or.inl (activeMem_updateKey_shrink
          (fun v hv => List.mem_of_mem_filter hv) (activeMem_eraseKey ha))
      | inr hu => exact Or.inr hu
    · intro hk
      apply h
      cases hk with
      | inl ha =>
        exact Or.inl (activeMem_updateKey_shrink
          (fun v hv => List.mem_of_mem_filter hv) ha)
      | inr hu => exact Or.inr hu
  · exact h

theorem userMapCleanup_not_known {st : ConnectionManager} {ws : Nat}
    {uid : String} {c : Nat} (h : ¬ knownConn st c) :
    ¬ knownConn (userMapCleanup st ws uid) c := by
  simp only [userMapCleanup]
  split
  · split
    · intro hk
      apply h
      cases hk with
      | inl ha => exact Or.inl ha
      | inr hu => exact Or.inr (userConn_eraseKey hu)
    · intro hk
      apply h
      cases hk with
      | inl ha => exact Or.inl ha
      | inr hu => exact Or.inr (userConn_eraseKey hu)
  · intro hk
    apply h
    cases hk with
    | inl ha => exact Or.inl ha
    | inr hu => exact Or.inr (userConn_eraseKey hu)

theorem disconnect_not_known {health : Nat → Bool} {st : ConnectionManager}
    {ws : Nat} {db : Option CollaborationSession} {now : Nat} {c : Nat}
    (h : ¬ knownConn st c) :
    ¬ knownConn (disconnect health st ws db now).1 c := by
  unfold disconnect
  cases hq : lookupKey ws st.user_connections with
  | none => exact h
  | some su =>
    have h4 := @userMapCleanup_not_known (sessionCleanup st ws su.1 su.2).1 ws
      su.2.id c (@sessionCleanup_not_known st ws su.1 su.2 c h)
    cases hsc : (sessionCleanup st ws su.1 su.2).2 with
    | none =>
      simp only [hsc]
      exact h4
    | some msg =>
      simp only [hsc]
      exact broadcast_not_known h4

theorem applyOp_not_known {health : Nat → Bool} {st : ConnectionManager}
    {op : Op} {c : Nat} (h : ¬ knownConn st c) (hne : op.socket ≠ c) :
    ¬ knownConn (applyOp health st op).1 c := by
  cases op with
  | connectOp ws sid ui freshId now =>
    simp only [applyOp]
    exact @connect_not_known health st ws sid ui freshId now none c h hne
  | messageOp ws mtype data =>
    simp only [applyOp]
    exact handle_message_not_known h
  | disconnectOp ws now =>
    simp only [applyOp]
    exact disconnect_not_known h

theorem activeMem_sessionCleanup {st : ConnectionManager} {ws : Nat}
    {sid : String} {ui : UserInfo} {c : Nat}
    (h : ∃ e ∈ (sessionCleanup st ws sid ui).1.active_connections, c ∈ e.2) :
    ∃ e ∈ st.active_connections, c ∈ e.2 := by
  unfold sessionCleanup at h
  split at h
  · dsimp only at h
    split at h
    · exact activeMem_updateKey_shrink (fun v hv => List.mem_of_mem_filter hv)
        (activeMem_eraseKey h)
    · exact activeMem_updateKey_shrink (fun v hv => List.mem_of_mem_filter hv) h
  · exact h

/-- Every send event of `connect` that targets the new websocket itself is
the `session_info` snapshot: the `user_joined` fan-out excludes it. -/
theorem connect_event_elim {health : Nat → Bool} {st : ConnectionManager}
    {ws : Nat} {sid : String} {ui : UserInfo} {freshId : String} {now : Nat}
    {db : Option CollaborationSession} {c : Nat} {m : WsMessage}
    (h : (c, m) ∈ (connect health st ws sid ui freshId now db).2.1) :
    health c = true ∧
    (knownConn st c ∨ c = ws) ∧
    (c = ws → ∃ parts cnt, m = WsMessage.session_info sid parts cnt) := by
  simp only [connect] at h
  rcases List.mem_append.mp h with hb | hs
  · obtain ⟨ha2, hh, hex⟩ := broadcast_event_elim hb
    refine ⟨hh, ?_, fun hcw => absurd (congrArg some hcw.symm) hex⟩
    rcases activeMem_registerConnection ha2 with hmem | hcw
    · exact Or.inl (Or.inl (activeMem_initSession hmem))
    · exact Or.inr hcw
  · split at hs
    · rename_i hw
      simp only [List.mem_singleton] at hs
      obtain ⟨hc, hm⟩ := Prod.ext_iff.mp hs
      subst hc
      exact ⟨hw, Or.inr rfl, fun _ => ⟨_, _, hm⟩⟩
    · cases hs

theorem handle_message_event_elim {health : Nat → Bool} {st : ConnectionManager}
    {ws : Nat} {mtype data : String} {c : Nat} {m : WsMessage}
    (h : (c, m) ∈ (handle_message health st ws mtype data).2) :
    health c = true ∧ knownConn st c := by
  simp only [handle_message] at h
  cases hq : lookupKey ws st.user_connections with
  | none => rw [hq] at h; cases h
  | some su =>
    rw [hq] at h
    simp only at h
    split at h
    · obtain ⟨ha, hh, _⟩ := broadcast_event_elim h
      exact ⟨hh, Or.inl ha⟩
    · obtain ⟨ha, hh, _⟩ := broadcast_event_elim h
      exact ⟨hh, Or.inl ha⟩

theorem disconnect_event_elim {health : Nat → Bool} {st : ConnectionManager}
    {ws : Nat} {db : Option CollaborationSession} {now : Nat} {c : Nat}
    {m : WsMessage}
    (h : (c, m) ∈ (disconnect health st ws db now).2.1) :
    health c = true ∧ knownConn st c := by
  simp only [disconnect] at h
  cases hq : lookupKey ws st.user_connections with
  | none => rw [hq] at h; cases h
  | some su =>
    rw [hq] at h
    simp only at h
    cases hsc : (sessionCleanup st ws su.1 su.2).2 with
    | none =>
      rw [hsc] at h
      cases h
    | some msg =>
      rw [hsc] at h
      simp only at h
      obtain ⟨ha, hh, _⟩ := broadcast_event_elim h
      have e2 := (userMapCleanup_spec (sessionCleanup st ws su.1 su.2).1 ws
        su.2.id).2.1
      rw [e2] at ha
      exact ⟨hh, Or.inl (activeMem_sessionCleanup ha)⟩

theorem applyOp_event_elim {health : Nat → Bool} {st : ConnectionManager}
    {op : Op} {c : Nat} {m : WsMessage}
    (h : (c, m) ∈ (applyOp health st op).2) :
    health c = true ∧ (knownConn st c ∨ c = op.socket) := by
  cases op with
  | connectOp ws sid ui freshId now =>
    simp only [applyOp] at h
    obtain ⟨hh, ht, _⟩ := connect_event_elim h
    exact ⟨hh, ht⟩
  | messageOp ws mtype data =>
    simp only [applyOp] at h
    obtain ⟨hh, hk⟩ := handle_message_event_elim h
    exact ⟨hh, Or.inl hk⟩
  | disconnectOp ws now =>
    simp only [applyOp] at h
    obtain ⟨hh, hk⟩ := disconnect_event_elim h
    exact ⟨hh, Or.inl hk⟩

theorem runOps_fresh (health : Nat → Bool) (ops : List Op) :
    ∀ (st : ConnectionManager) {c : Nat}, ¬ knownConn st c →
      (∀ op ∈ ops, op.socket ≠ c) →
      (∀ m, (c, m) ∉ (runOps health st ops).2) ∧
        ¬ knownConn (runOps health st ops).1 c := by
  induction ops with
  | nil =>
    intro st c h _
    refine ⟨fun m hm => ?_, h⟩
    simp only [runOps] at hm
    cases hm
  | cons op ops ih =>
    intro st c h hops
    have hne : op.socket ≠ c := hops op (List.mem_cons_self _ _)
    have h1 := @applyOp_not_known health st op c h hne
    have hrec := ih _ h1 (fun o ho => hops o (List.mem_cons_of_mem _ ho))
    refine ⟨fun m hm => ?_, hrec.2⟩
    simp only [runOps] at hm
    rcases List.mem_append.mp hm with ha | hb
    · rcases (applyOp_event_elim ha).2 with hk | hcs
      · exact h hk
      · exact hne hcs.symm
    · exact hrec.1 m hb

theorem runOps_event_healthy (health : Nat → Bool) (ops : List Op) :
    ∀ (st : ConnectionManager) {c : Nat} {m : WsMessage},
      (c, m) ∈ (runOps health st ops).2 → health c = true := by
  induction ops with
  | nil => intro st c m h; cases h
  | cons op ops ih =>
    intro st c m h
    simp only [runOps] at h
    rcases List.mem_append.mp h with h1 | h2
    · exact (applyOp_event_elim h1).1
    · exact ih _ h2

theorem runOps_append (health : Nat → Bool) (l1 l2 : List Op) :
    ∀ st : ConnectionManager,
      runOps health st (l1 ++ l2) =
        ((runOps health (runOps health st l1).1 l2).1,
         (runOps health st l1).2 ++
           (runOps health (runOps health st l1).1 l2).2) := by
  induction l1 with
  | nil => intro st; simp [runOps]
  | cons op l1 ih =>
    intro st
    show runOps health st (op :: (l1 ++ l2)) = _
    simp only [runOps]
    rw [ih (applyOp health st op).1]
    simp [List.append_assoc]

/-- Every element of the websocket-filtered event list corresponds to an
event targeting that websocket. -/
theorem mem_filterMap_target {evs : List (Nat × WsMessage)} {ws : Nat}
    {m : WsMessage}
    (h : m ∈ evs.filterMap (fun e => if e.1 = ws then some e.2 else none)) :
    (ws, m) ∈ evs := by
  obtain ⟨e, he, hf⟩ := List.mem_filterMap.mp h
  by_cases hew : e.1 = ws
  · rw [if_pos hew] at hf
    cases hf
    have heq : e = (ws, e.2) := by rw [← hew]
    exact heq ▸ he
  · rw [if_neg hew] at hf
    cases hf

/-- When the new websocket is healthy, the websocket-targeted events of its
`connect` are exactly one message (the snapshot). -/
theorem connect_events_filter {health : Nat → Bool} {st : ConnectionManager}
    {ws : Nat} {sid : String} {ui : UserInfo} {freshId : String} {now : Nat}
    {db : Option CollaborationSession} (hw : health ws = true) :
    ∃ m0,
      (connect health st ws sid ui freshId now db).2.1.filterMap
        (fun e => if e.1 = ws then some e.2 else none) = [m0] := by
  have h1 : ((broadcast_to_session health
      (registerConnection (initSession st sid now) ws sid
        (UserInfo.mk (if ui.id = "" then freshId else ui.id) ui.name)) sid
      (WsMessage.user_joined
        (UserInfo.mk (if ui.id = "" then freshId else ui.id) ui.name)
        ((lookupKey sid (registerConnection (initSession st sid now) ws sid
          (UserInfo.mk (if ui.id = "" then freshId else ui.id)
            ui.name)).active_connections).getD []).length)
      (some ws)).2).filterMap
        (fun e => if e.1 = ws then some e.2 else none) = [] := by
    apply List.filterMap_eq_nil_iff.mpr
    intro e he
    by_cases hew : e.1 = ws
    · exfalso
      have hex := (broadcast_event_elim (show (e.1, e.2) ∈ _ from he)).2.2
      exact hex (congrArg some hew.symm)
    · exact if_neg hew
  have hlen : ((connect health st ws sid ui freshId now db).2.1.filterMap
      (fun e => if e.1 = ws then some e.2 else none)).length = 1 := by
    simp only [connect, List.filterMap_append, h1, List.nil_append, if_pos hw]
    simp
  exact List.length_eq_one.mp hlen

/-- C5: every connection that joins a session receives its `session_info`
roster snapshot strictly before any broadcast event it can receive: in the
send-event trace of any operation sequence surrounding the join of a fresh
websocket, the first message delivered to that websocket (if it receives
anything at all) is the `session_info` snapshot of the joined session. -/
theorem claim_C5_snapshot_before_broadcast (health : Nat → Bool)
    (st0 : ConnectionManager) (pre post : List Op) (ws : Nat) (sid : String)
    (ui : UserInfo) (freshId : String) (now : Nat)
    (hfresh : ¬ knownConn st0 ws)
    (hpre : ∀ op ∈ pre, op.socket ≠ ws) :
    ∀ m, ((runOps health st0
        (pre ++ Op.connectOp ws sid ui freshId now :: post)).2.filterMap
        (fun e => if e.1 = ws then some e.2 else none)).head? = some m →
      ∃ parts cnt, m = WsMessage.session_info sid parts cnt := by
  intro m hm
  rw [runOps_append health pre (Op.connectOp ws sid ui freshId now :: post) st0]
    at hm
  have hfr := runOps_fresh health pre st0 hfresh hpre
  have hpre0 : (runOps health st0 pre).2.filterMap
      (fun e => if e.1 = ws then some e.2 else none) = [] := by
    apply List.filterMap_eq_nil_iff.mpr
    intro e he
    by_cases hew : e.1 = ws
    · exfalso
      apply hfr.1 e.2
      have heq : e = (ws, e.2) := by rw [← hew]
      exact heq ▸ he
    · exact if_neg hew
  simp only [runOps, List.filterMap_append, hpre0, List.nil_append, applyOp] at hm
  cases hh : health ws with
  | true =>
    obtain ⟨m0, hf⟩ := @connect_events_filter health (runOps health st0 pre).1 ws
      sid ui freshId now none hh
    rw [hf] at hm
    simp only [List.cons_append, List.head?_cons, Option.some.injEq] at hm
    subst hm
    have hmem : (ws, m0) ∈
        (connect health (runOps health st0 pre).1 ws sid ui freshId now
          none).2.1 := by
      apply mem_filterMap_target
      rw [hf]
      exact List.mem_singleton_self m0
    exact (connect_event_elim hmem).2.2 rfl
  | false =>
    exfalso
    have hmem := List.mem_of_mem_head? (Option.mem_def.mpr hm)
    rcases List.mem_append.mp hmem with h1 | h2
    · have hhc := (connect_event_elim (mem_filterMap_target h1)).1
      rw [hh] at hhc
      cases hhc
    · have hhc := runOps_event_healthy health post _ (mem_filterMap_target h2)
      rw [hh] at hhc
      cases hhc

/-- The empty registry. -/
def emptyManager : ConnectionManager :=
  { active_connections := [], user_connections := [],
    sessions := [], user_id_connections := [] }

theorem claim_C5_snapshot_before_broadcast_witness :
    (¬ knownConn emptyManager 1) ∧
    (∀ op ∈ [Op.connectOp 0 "s" userAliceInfo "f0" 0], Op.socket op ≠ 1) ∧
    (∀ m, ((runOps (fun _ => true) emptyManager
        ([Op.connectOp 0 "s" userAliceInfo "f0" 0] ++
          Op.connectOp 1 "s" userBobInfo "f1" 1 ::
            [Op.messageOp 0 "code_change" "x"])).2.filterMap
        (fun e => if e.1 = 1 then some e.2 else none)).head? = some m →
      ∃ parts cnt, m = WsMessage.session_info "s" parts cnt) :=
  ⟨by decide, by decide,
   claim_C5_snapshot_before_broadcast (fun _ => true) emptyManager
     [Op.connectOp 0 "s" userAliceInfo "f0" 0]
     [Op.messageOp 0 "code_change" "x"] 1 "s" userBobInfo "f1" 1
     (by decide) (by decide)⟩

end Codevoice
